import Mathlib

set_option maxHeartbeats 1600000

/-! Verification of the PhonePe Pulse ETL normalization core
    (etl_load_phonepe.py): a shallow embedding of its JSON value model,
    the Python-style coercions it relies on, the path context resolver,
    the record extractors and the load orchestrator, together with
    theorems about the behaviours its documentation describes. -/

/-- JSON values as produced by json.load, which is also the value universe
the Python helpers operate on: Python None and JSON null are JVal.null,
Python ints and floats are both modelled as rationals, dicts are
association lists in insertion order with distinct keys (as json.load
produces). -/
inductive JVal where
  | null : JVal
  | bool : Bool → JVal
  | num : ℚ → JVal
  | str : String → JVal
  | arr : List JVal → JVal
  | obj : List (String × JVal) → JVal

/-- Test for Python None (the is None checks of the source). -/
def JVal.isNull : JVal → Bool
  | .null => true
  | _ => false

/-- Python == between an arbitrary value and a string literal: true only
for an equal str (values of other types never equal a string). -/
def JVal.eqStr : JVal → String → Bool
  | .str a, b => a == b
  | _, _ => false

/-- Test for isinstance(v, dict). -/
def JVal.isObj : JVal → Bool
  | .obj _ => true
  | _ => false

/-- Python truthiness of a value: None, False, 0, empty string, empty list
and empty dict are falsy, everything else truthy. -/
def JVal.truthy : JVal → Bool
  | .null => false
  | .bool b => b
  | .num q => q != 0
  | .str s => s != ""
  | .arr xs => !xs.isEmpty
  | .obj kvs => !kvs.isEmpty

/-- Python expression a or b: a when a is truthy, else b. -/
def pyOr (a b : JVal) : JVal := if a.truthy then a else b

/-- Lookup of a key in a dict (association list, first match; json.load
yields distinct keys); a missing key is reported as null exactly like
dict.get reports None. -/
def lookupKey (kvs : List (String × JVal)) (k : String) : JVal :=
  match kvs.find? (fun kv => kv.1 == k) with
  | some kv => kv.2
  | none => JVal.null

/-- Membership test k in d for a dict. -/
def containsKey (kvs : List (String × JVal)) (k : String) : Bool :=
  kvs.any (fun kv => kv.1 == k)

/-- Python d.get(k): None for a missing key, AttributeError when the
receiver is not a dict. -/
def pyGetE : JVal → String → Except String JVal
  | .obj kvs, k => .ok (lookupKey kvs k)
  | _, _ => .error "AttributeError"

/-- Python d.get(k, default): the stored value (even if None) when the key
is present, otherwise the default; AttributeError when the receiver is not
a dict. -/
def pyGetD : JVal → String → JVal → Except String JVal
  | .obj kvs, k, dflt => .ok (if containsKey kvs k then lookupKey kvs k else dflt)
  | _, _, _ => .error "AttributeError"

/-- Embedding of safe_get(d, *keys): walk the keys, returning None as soon
as the current value is not a dict or the key is absent/None. -/
def safe_get : JVal → List String → JVal
  | cur, [] => cur
  | .obj kvs, k :: ks =>
      let nxt := lookupKey kvs k
      if nxt.isNull then JVal.null else safe_get nxt ks
  | _, _ :: _ => JVal.null

/-- Python iteration (for x in v): a list yields its elements, a dict its
keys, a string its characters; other values raise TypeError. -/
def pyIter : JVal → Except String (List JVal)
  | .arr xs => .ok xs
  | .obj kvs => .ok (kvs.map (fun kv => JVal.str kv.1))
  | .str s => .ok (s.toList.map (fun c => JVal.str (String.singleton c)))
  | _ => .error "TypeError"

/-- Digit test on a list of characters: nonempty and all ASCII digits. -/
def allDigits (cs : List Char) : Bool := !cs.isEmpty && cs.all Char.isDigit

/-- Embedding of str.isdigit() restricted to ASCII digits (the only digits
occurring in the data paths). -/
def pyIsDigit (s : String) : Bool := allDigits s.toList

/-- Value of a string of decimal digits. -/
def digitsToNat (cs : List Char) : Nat :=
  cs.foldl (fun a c => a * 10 + (c.toNat - 48)) 0

/-- Embedding of int(s) for a digit string. -/
def strDigitsToInt (s : String) : Int := (digitsToNat s.toList : Int)

/-- Truncation of a rational toward zero, as Python int() applied to a
float (Int.div is T-division and the denominator is positive). -/
def ratTrunc (q : ℚ) : Int := Int.tdiv q.num (q.den : Int)

/-- Embedding of Python int(v): bools map to 0/1, numbers truncate toward
zero, digit strings (with an optional minus sign) parse; None and every
other shape raise (TypeError/ValueError). Exotic int() inputs (unicode
digits, surrounding whitespace) do not occur in this data and are
conservatively treated as errors. -/
def pyInt : JVal → Except String Int
  | .bool b => .ok (if b then 1 else 0)
  | .num q => .ok (ratTrunc q)
  | .str s =>
      match s.toList with
      | '-' :: rest => if allDigits rest then .ok (-(digitsToNat rest : Int)) else .error "ValueError"
      | cs => if allDigits cs then .ok (digitsToNat cs : Int) else .error "ValueError"
  | _ => .error "TypeError"

/-- Embedding of Python float(v): bools map to 0/1, numbers pass through,
strings of the form [-]digits[.digits] parse; None and every other shape
raise. Exponent and special-float spellings do not occur in this data and
are conservatively treated as errors. -/
def pyFloat : JVal → Except String ℚ
  | .bool b => .ok (if b then 1 else 0)
  | .num q => .ok q
  | .str s =>
      let core := fun (cs : List Char) =>
        match cs.splitOn '.' with
        | [a] => if allDigits a then some ((digitsToNat a : ℚ)) else none
        | [a, b] => if allDigits a && allDigits b then
            some ((digitsToNat a : ℚ) + (digitsToNat b : ℚ) / ((10 : ℚ) ^ b.length))
          else none
        | _ => none
      match s.toList with
      | '-' :: rest =>
          match core rest with
          | some q => .ok (-q)
          | none => .error "ValueError"
      | cs =>
          match core cs with
          | some q => .ok q
          | none => .error "ValueError"
  | _ => .error "TypeError"

/-- Conversion of an optional string argument (a Python value that is
either None or a str) into the JVal stored in a row dict. -/
def optStr : Option String → JVal
  | none => JVal.null
  | some s => JVal.str s

/-- Conversion of an optional integer argument into the JVal stored in a
row dict. -/
def optInt : Option Int → JVal
  | none => JVal.null
  | some n => JVal.num (n : ℚ)

/-- Rows are exactly the Python dicts the extractors build: ordered
key/value lists. -/
abbrev Row := List (String × JVal)

instance {ε α : Type} [DecidableEq ε] [DecidableEq α] : DecidableEq (Except ε α) := fun a b =>
  match a, b with
  | .error e1, .error e2 =>
      if h : e1 = e2 then isTrue (by rw [h]) else isFalse (by intro hc; cases hc; exact h rfl)
  | .ok v1, .ok v2 =>
      if h : v1 = v2 then isTrue (by rw [h]) else isFalse (by intro hc; cases hc; exact h rfl)
  | .error _, .ok _ => isFalse (by intro hc; cases hc)
  | .ok _, .error _ => isFalse (by intro hc; cases hc)

/-- Replacement of every non-overlapping occurrence of pat, scanning left
to right, as Python str.replace does; structural recursion on a fuel that
bounds the scan length (each step consumes at least one character, so a
fuel of the input length is exact; pat is nonempty at every use site). -/
def replaceFuel (pat rep : List Char) : Nat → List Char → List Char
  | _, [] => []
  | 0, c :: rest => c :: rest
  | fuel + 1, c :: rest =>
      if pat ≠ [] ∧ pat.isPrefixOf (c :: rest) then
        rep ++ replaceFuel pat rep fuel ((c :: rest).drop pat.length)
      else c :: replaceFuel pat rep fuel rest

/-- Replacement of every occurrence of pat in a character list. -/
def listReplace (pat rep s : List Char) : List Char :=
  replaceFuel pat rep s.length s

/-- Embedding of Python s.replace(old, new). -/
def pyReplace (s pat rep : String) : String :=
  String.mk (listReplace pat.toList rep.toList s.toList)

/-- Substring containment, as the Python expression sub in s. -/
def strContains (s sub : String) : Bool :=
  s.toList.tails.any (fun t => sub.toList.isPrefixOf t)

/-- Embedding of pathlib PurePath(name).stem for a single path segment:
the name without its suffix, where a suffix starts at the last dot as long
as that dot is neither the first nor the last character. -/
def pstem (s : String) : String :=
  let cs := s.toList
  match (cs.reverse.findIdx? (fun c => c == '.')).map (fun j => cs.length - 1 - j) with
  | some i => if 0 < i ∧ i < cs.length - 1 then String.mk (cs.take i) else s
  | none => s

/-- Context tuple returned by the Path Context Resolver. -/
structure PathCtx where
  country : Option String
  state : Option String
  district : Option String
  year : Option Int
  quarter : Option Int
  deriving Repr, DecidableEq

/-- Embedding of parse_path_context over the pathlib parts of the input
path. The source assigns year and quarter inside each marker try-block
guarded by the same digit tests on the same two tail positions, so the
pure field updates below coincide with its conditional reassignments; an
out-of-range marker follower (IndexError) skips that whole block, exactly
as the except clause does. -/
def parse_path_context (parts : List String) : PathCtx :=
  let idx := (parts.findIdx? (fun s => s == "data")).getD 0
  let tail := parts.drop (idx + 1)
  let y2 := (tail.get? (tail.length - 2)).getD ""
  let qstem := pstem ((tail.get? (tail.length - 1)).getD "")
  let yearV : Option Int := if pyIsDigit y2 then some (strDigitsToInt y2) else none
  let quarterV : Option Int := if pyIsDigit qstem then some (strDigitsToInt qstem) else none
  let ctx0 : PathCtx := ⟨none, none, none, none, none⟩
  let ctx :=
    if 4 ≤ tail.length then
      if tail.head? = some "aggregated" then
        let c1 :=
          if tail.contains "country" then
            match tail.get? (tail.indexOf "country" + 1) with
            | some seg => { ctx0 with country := some seg, year := yearV, quarter := quarterV }
            | none => ctx0
          else ctx0
        if tail.contains "state" then
          match tail.get? (tail.indexOf "state" + 1) with
          | some seg => { c1 with state := some seg, year := yearV, quarter := quarterV }
          | none => c1
        else c1
      else
        let c1 :=
          if tail.contains "country" && tail.contains "india" then
            { ctx0 with year := yearV, quarter := quarterV }
          else ctx0
        if tail.contains "state-wise" then
          match tail.get? (tail.indexOf "state-wise" + 1) with
          | some seg => { c1 with state := some seg }
          | none => c1
        else c1
    else ctx0
  { ctx with state := ctx.state.map (fun s => pyReplace s "%20" " ") }

/-- Row dict built by parse_aggregated_transaction for one transaction
type entry. -/
def mkAggTxRow (country state district : Option String) (year quarter : Option Int)
    (source : String) (ttype cnt amt : JVal) : Row :=
  [("source_path", JVal.str source), ("country", optStr country), ("state", optStr state),
   ("district", optStr district), ("year", optInt year), ("quarter", optInt quarter),
   ("transaction_type", ttype), ("transaction_count", cnt), ("transaction_amount", amt)]

/-- Loop of parse_aggregated_transaction over paymentInstruments: the
first instrument whose type equals TOTAL yields its count and amount
values and breaks; instruments that are not dicts raise. -/
def findTOTAL : List JVal → Except String (Option (JVal × JVal))
  | [] => .ok none
  | inst :: rest => do
      let t ← pyGetE inst "type"
      if t.eqStr "TOTAL" then do
        let c ← pyGetE inst "count"
        let a ← pyGetE inst "amount"
        pure (some (c, a))
      else findTOTAL rest

/-- Fallback sum(int(i.get("count") or 0) for i in instruments), with the
running accumulator made explicit. -/
def sumCounts : List JVal → Int → Except String Int
  | [], acc => .ok acc
  | inst :: rest, acc => do
      let c ← pyGetE inst "count"
      let n ← pyInt (pyOr c (JVal.num 0))
      sumCounts rest (acc + n)

/-- Fallback sum(float(i.get("amount") or 0) for i in instruments). -/
def sumAmounts : List JVal → ℚ → Except String ℚ
  | [], acc => .ok acc
  | inst :: rest, acc => do
      let a ← pyGetE inst "amount"
      let q ← pyFloat (pyOr a (JVal.num 0))
      sumAmounts rest (acc + q)

/-- Field computation of parse_aggregated_transaction for one entry of
transactionData: the transaction type and the coerced count and amount
stored in the row (errors of the fallback sums are swallowed by the
try/except into None; errors of the final int()/float() propagate). -/
def aggTxOne (rec : JVal) : Except String (JVal × JVal × JVal) := do
  let ttype ← pyGetE rec "name"
  let instrumentsV ← pyGetD rec "paymentInstruments" (JVal.arr [])
  let insts ← pyIter instrumentsV
  let found ← findTOTAL insts
  let tc0 := match found with
    | some p => p.1
    | none => JVal.null
  let ta0 := match found with
    | some p => p.2
    | none => JVal.null
  let total_count := if tc0.isNull then
      match sumCounts insts 0 with
      | .ok n => JVal.num (n : ℚ)
      | .error _ => JVal.null
    else tc0
  let total_amount := if ta0.isNull then
      match sumAmounts insts 0 with
      | .ok q => JVal.num q
      | .error _ => JVal.null
    else ta0
  let cnt ← if total_count.isNull || total_count.eqStr "" then pure JVal.null
    else do
      let n ← pyInt total_count
      pure (JVal.num (n : ℚ))
  let amt ← if total_amount.isNull || total_amount.eqStr "" then pure JVal.null
    else do
      let q ← pyFloat total_amount
      pure (JVal.num q)
  pure (ttype, cnt, amt)

/-- Row loop of parse_aggregated_transaction over transactionData. -/
def aggTxRows (country state district : Option String) (year quarter : Option Int)
    (source : String) : List JVal → Except String (List Row)
  | [] => .ok []
  | rec :: rest => do
      let f ← aggTxOne rec
      let rows ← aggTxRows country state district year quarter source rest
      pure (mkAggTxRow country state district year quarter source f.1 f.2.1 f.2.2 :: rows)

/-- Embedding of parse_aggregated_transaction. -/
def parse_aggregated_transaction (j : JVal) (country state district : Option String)
    (year quarter : Option Int) (source : String) : Except String (List Row) := do
  let tdata := pyOr (safe_get j ["data", "transactionData"]) (JVal.arr [])
  let recs ← pyIter tdata
  aggTxRows country state district year quarter source recs

/-- Row dict built by parse_aggregated_user. -/
def mkAggUserRow (country state district : Option String) (year quarter : Option Int)
    (source : String) (reg opens act : JVal) : Row :=
  [("source_path", JVal.str source), ("country", optStr country), ("state", optStr state),
   ("district", optStr district), ("year", optInt year), ("quarter", optInt quarter),
   ("registered_users", reg), ("app_opens", opens), ("active_users", act)]

/-- Summation loop of parse_aggregated_user over usersByDevice entries,
with the two running totals made explicit. -/
def sumDevices : List JVal → Int → Int → Except String (Int × Int)
  | [], reg, opens => .ok (reg, opens)
  | rec :: rest, reg, opens => do
      let r1 ← pyGetE rec "registeredUsers"
      let r2 ← pyGetE rec "count"
      let r ← pyInt (pyOr r1 (pyOr r2 (JVal.num 0)))
      let o1 ← pyGetE rec "appOpens"
      let o2 ← pyGetE rec "appOpensCount"
      let o ← pyInt (pyOr o1 (pyOr o2 (JVal.num 0)))
      sumDevices rest (reg + r) (opens + o)

/-- Embedding of parse_aggregated_user: the top-level summary shape is
preferred; otherwise a nonempty usersByDevice list is summed into one
aggregate row with active_users None; otherwise no rows. -/
def parse_aggregated_user (j : JVal) (country state district : Option String)
    (year quarter : Option Int) (source : String) : Except String (List Row) := do
  let data := pyOr (safe_get j ["data"]) (JVal.obj [])
  match data with
  | JVal.obj kvs =>
      if containsKey kvs "registeredUsers" || containsKey kvs "appOpens" || containsKey kvs "activeUsers" then do
        let reg ← pyInt (pyOr (lookupKey kvs "registeredUsers") (JVal.num 0))
        let opens ← pyInt (pyOr (lookupKey kvs "appOpens") (JVal.num 0))
        let act ← if (lookupKey kvs "activeUsers").isNull then pure JVal.null
          else do
            let a ← pyInt (pyOr (lookupKey kvs "activeUsers") (JVal.num 0))
            pure (JVal.num (a : ℚ))
        pure [mkAggUserRow country state district year quarter source
          (JVal.num (reg : ℚ)) (JVal.num (opens : ℚ)) act]
      else
        match lookupKey kvs "usersByDevice" with
        | JVal.arr entries =>
            if entries.isEmpty then pure []
            else do
              let t ← sumDevices entries 0 0
              pure [mkAggUserRow country state district year quarter source
                (JVal.num (t.1 : ℚ)) (JVal.num (t.2 : ℚ)) JVal.null]
        | _ => pure []
  | _ => pure []

/-- Row dict built by parse_aggregated_insurance. -/
def mkAggInsRow (country state district : Option String) (year quarter : Option Int)
    (source : String) (itype pol prem : JVal) : Row :=
  [("source_path", JVal.str source), ("country", optStr country), ("state", optStr state),
   ("district", optStr district), ("year", optInt year), ("quarter", optInt quarter),
   ("insurance_type", itype), ("total_policies", pol), ("total_premium", prem)]

/-- Field computation of parse_aggregated_insurance for one entry. -/
def aggInsOne (rec : JVal) : Except String (JVal × JVal × JVal) := do
  let n1 ← pyGetE rec "name"
  let n2 ← pyGetE rec "insuranceType"
  let c1 ← pyGetE rec "count"
  let c2 ← pyGetE rec "policies"
  let pol ← pyInt (pyOr c1 (pyOr c2 (JVal.num 0)))
  let a1 ← pyGetE rec "amount"
  let a2 ← pyGetE rec "premium"
  let prem ← pyFloat (pyOr a1 (pyOr a2 (JVal.num 0)))
  pure (pyOr n1 n2, JVal.num (pol : ℚ), JVal.num prem)

/-- Row loop of parse_aggregated_insurance. -/
def aggInsRows (country state district : Option String) (year quarter : Option Int)
    (source : String) : List JVal → Except String (List Row)
  | [] => .ok []
  | rec :: rest => do
      let f ← aggInsOne rec
      let rows ← aggInsRows country state district year quarter source rest
      pure (mkAggInsRow country state district year quarter source f.1 f.2.1 f.2.2 :: rows)

/-- Embedding of parse_aggregated_insurance: the insurance list is taken
from data.insurance or data.insuranceData, a single dict is wrapped into a
one-element list, and one row is emitted per entry. -/
def parse_aggregated_insurance (j : JVal) (country state district : Option String)
    (year quarter : Option Int) (source : String) : Except String (List Row) := do
  let l0 := pyOr (pyOr (safe_get j ["data", "insurance"]) (safe_get j ["data", "insuranceData"])) (JVal.arr [])
  let ins_list := match l0 with
    | JVal.obj kvs => JVal.arr [JVal.obj kvs]
    | v => v
  let recs ← pyIter ins_list
  aggInsRows country state district year quarter source recs

/-- Row dict built by the map transaction branch of parse_map_json. -/
def mkMapTxRow (country state : Option String) (year quarter : Option Int)
    (source : String) (name cnt amt : JVal) : Row :=
  [("source_path", JVal.str source), ("country", optStr country), ("state", optStr state),
   ("district", name), ("year", optInt year), ("quarter", optInt quarter),
   ("total_tx_count", cnt), ("total_tx_amount", amt)]

/-- Candidate container lists of the map transaction branch: the four keys
tried in order, kept only when present with a list value; when none match
and the data payload itself is a list, that list is the one candidate. -/
def mapTxCandidates (data : JVal) : List (List JVal) :=
  let fromDict := match data with
    | JVal.obj kvs =>
        ["hoverDataList", "data", "hoverData", "states"].filterMap (fun k =>
          if containsKey kvs k then
            match lookupKey kvs k with
            | JVal.arr xs => some xs
            | _ => none
          else none)
    | _ => []
  if fromDict.isEmpty then
    match data with
    | JVal.arr xs => [xs]
    | _ => []
  else fromDict

/-- Field computation of the map transaction branch for one hover entry
(already known to be a dict): the area name, and the metric totals that
are None when the aliased metric value is a truthy non-dict and otherwise
coerced ints/floats with the or-0 defaults. -/
def mapTxOne (kvs : List (String × JVal)) : Except String (JVal × JVal × JVal) := do
  let name := pyOr (lookupKey kvs "name") (pyOr (lookupKey kvs "district")
    (pyOr (lookupKey kvs "state") (JVal.str "Unknown")))
  let metric := pyOr (lookupKey kvs "metric") (pyOr (lookupKey kvs "values")
    (pyOr (lookupKey kvs "value") (JVal.obj [])))
  let cnt ← match metric with
    | JVal.obj mkv => do
        let n ← pyInt (pyOr (lookupKey mkv "count") (pyOr (lookupKey mkv "totalCount") (JVal.num 0)))
        pure (JVal.num (n : ℚ))
    | _ => pure JVal.null
  let amt ← match metric with
    | JVal.obj mkv => do
        let q ← pyFloat (pyOr (lookupKey mkv "amount") (pyOr (lookupKey mkv "totalAmount") (JVal.num 0)))
        pure (JVal.num q)
    | _ => pure JVal.null
  pure (name, cnt, amt)

/-- Item loop of the map transaction branch; non-dict items are skipped. -/
def mapTxItems (country state : Option String) (year quarter : Option Int)
    (source : String) : List JVal → Except String (List Row)
  | [] => .ok []
  | item :: rest =>
      match item with
      | JVal.obj kvs => do
          let f ← mapTxOne kvs
          let rows ← mapTxItems country state year quarter source rest
          pure (mkMapTxRow country state year quarter source f.1 f.2.1 f.2.2 :: rows)
      | _ => mapTxItems country state year quarter source rest

/-- Candidate loop of the map transaction branch. -/
def mapTxCands (country state : Option String) (year quarter : Option Int)
    (source : String) : List (List JVal) → Except String (List Row)
  | [] => .ok []
  | cand :: rest => do
      let r1 ← mapTxItems country state year quarter source cand
      let r2 ← mapTxCands country state year quarter source rest
      pure (r1 ++ r2)

/-- Row dict built by the map user branch of parse_map_json. -/
def mkMapUserRow (country state : Option String) (year quarter : Option Int)
    (source : String) (name reg opens : JVal) : Row :=
  [("source_path", JVal.str source), ("country", optStr country), ("state", optStr state),
   ("district", name), ("year", optInt year), ("quarter", optInt quarter),
   ("registered_users", reg), ("app_opens", opens)]

/-- Loop of the map user branch over the hoverData mapping entries
(dict items in insertion order); non-dict metric values are skipped. -/
def mapUserItems (country state : Option String) (year quarter : Option Int)
    (source : String) : List (String × JVal) → Except String (List Row)
  | [] => .ok []
  | (name, metric) :: rest =>
      match metric with
      | JVal.obj mkv => do
          let r ← pyInt (pyOr (lookupKey mkv "registeredUsers") (pyOr (lookupKey mkv "registered") (JVal.num 0)))
          let o ← pyInt (pyOr (lookupKey mkv "appOpens") (pyOr (lookupKey mkv "appOpensCount") (JVal.num 0)))
          let rows ← mapUserItems country state year quarter source rest
          pure (mkMapUserRow country state year quarter source (JVal.str name)
            (JVal.num (r : ℚ)) (JVal.num (o : ℚ)) :: rows)
      | _ => mapUserItems country state year quarter source rest

/-- Row dict built by the map insurance branch of parse_map_json. -/
def mkMapInsRow (country state : Option String) (year quarter : Option Int)
    (source : String) (name pol prem : JVal) : Row :=
  [("source_path", JVal.str source), ("country", optStr country), ("state", optStr state),
   ("district", name), ("year", optInt year), ("quarter", optInt quarter),
   ("total_policies", pol), ("total_premium", prem)]

/-- Candidate containers of the map insurance branch: the three keys kept
whenever present (any value shape). -/
def mapInsCandidates (data : JVal) : List JVal :=
  match data with
  | JVal.obj kvs => ["hoverDataList", "insurance", "data"].filterMap (fun k =>
      if containsKey kvs k then some (lookupKey kvs k) else none)
  | _ => []

/-- Metric computation of the map insurance branch for one entry dict. -/
def mapInsOne (kvs : List (String × JVal)) : Except String (JVal × JVal) := do
  let p ← pyInt (pyOr (lookupKey kvs "count") (pyOr (lookupKey kvs "policies") (JVal.num 0)))
  let q ← pyFloat (pyOr (lookupKey kvs "amount") (pyOr (lookupKey kvs "premium") (JVal.num 0)))
  pure (JVal.num (p : ℚ), JVal.num q)

/-- List-shaped candidate loop of the map insurance branch. -/
def mapInsListItems (country state : Option String) (year quarter : Option Int)
    (source : String) : List JVal → Except String (List Row)
  | [] => .ok []
  | item :: rest =>
      match item with
      | JVal.obj kvs => do
          let name := pyOr (lookupKey kvs "name") (pyOr (lookupKey kvs "district") (JVal.str "Unknown"))
          let f ← mapInsOne kvs
          let rows ← mapInsListItems country state year quarter source rest
          pure (mkMapInsRow country state year quarter source name f.1 f.2 :: rows)
      | _ => mapInsListItems country state year quarter source rest

/-- Dict-shaped candidate loop of the map insurance branch. -/
def mapInsDictItems (country state : Option String) (year quarter : Option Int)
    (source : String) : List (String × JVal) → Except String (List Row)
  | [] => .ok []
  | (name, metric) :: rest =>
      match metric with
      | JVal.obj mkv => do
          let f ← mapInsOne mkv
          let rows ← mapInsDictItems country state year quarter source rest
          pure (mkMapInsRow country state year quarter source (JVal.str name) f.1 f.2 :: rows)
      | _ => mapInsDictItems country state year quarter source rest

/-- Candidate loop of the map insurance branch: a list candidate runs the
item loop, a dict candidate the items loop, anything else is skipped. -/
def mapInsCands (country state : Option String) (year quarter : Option Int)
    (source : String) : List JVal → Except String (List Row)
  | [] => .ok []
  | cand :: rest => do
      let r1 ← match cand with
        | JVal.arr xs => mapInsListItems country state year quarter source xs
        | JVal.obj kvs => mapInsDictItems country state year quarter source kvs
        | _ => pure []
      let r2 ← mapInsCands country state year quarter source rest
      pure (r1 ++ r2)

/-- Embedding of parse_map_json, dispatching on the kind string exactly as
the source does; an unrecognized kind yields the initial empty rows. -/
def parse_map_json (j : JVal) (kind : String) (country state : Option String)
    (year quarter : Option Int) (source : String) : Except String (List Row) := do
  let data := pyOr (safe_get j ["data"]) (JVal.obj [])
  if kind == "transaction" then
    mapTxCands country state year quarter source (mapTxCandidates data)
  else if kind == "user" then do
    let h0 ← pyGetE data "hoverData"
    match pyOr h0 (JVal.obj []) with
    | JVal.obj items => mapUserItems country state year quarter source items
    | _ => pure []
  else if kind == "insurance" then
    mapInsCands country state year quarter source (mapInsCandidates data)
  else pure []

/-- Recursive helper find_lists of parse_top_json over the fields of a
dict: collect every list-valued field of nested dicts, depth-first in
insertion order; it does not recurse into lists. -/
def findListsKVs : List (String × JVal) → List (List JVal)
  | [] => []
  | (_, JVal.arr xs) :: rest => [xs] ++ findListsKVs rest
  | (_, JVal.obj kvs2) :: rest => findListsKVs kvs2 ++ findListsKVs rest
  | _ :: rest => findListsKVs rest
termination_by kvs => sizeOf kvs
decreasing_by
  all_goals simp
  all_goals omega

/-- Embedding of find_lists of parse_top_json: a non-dict finds nothing. -/
def find_lists : JVal → List (List JVal)
  | JVal.obj kvs => findListsKVs kvs
  | _ => []

/-- Row dict built by parse_top_json: the common header plus the two
kind-specific metric columns. -/
def mkTopRow (country state : Option String) (year quarter : Option Int)
    (source : String) (name pin rank : JVal) (k1 : String) (v1 : JVal)
    (k2 : String) (v2 : JVal) : Row :=
  [("source_path", JVal.str source), ("country", optStr country), ("state", optStr state),
   ("district", name), ("year", optInt year), ("quarter", optInt quarter),
   ("pin_code", pin), ("rank", rank), (k1, v1), (k2, v2)]

/-- Item loop of parse_top_json over one found list: non-dict items are
skipped; for dict items the common fields (name, pincode, rank) are
computed first and then the kind dispatch decides the row; a kind that is
none of user/transaction/insurance appends nothing. -/
def topItems (kind : String) (country state : Option String) (year quarter : Option Int)
    (source : String) : List JVal → Except String (List Row)
  | [] => .ok []
  | item :: rest =>
      match item with
      | JVal.obj kvs => do
          let name := pyOr (lookupKey kvs "name") (pyOr (lookupKey kvs "district") (lookupKey kvs "state"))
          let pin := pyOr (lookupKey kvs "pincode") (lookupKey kvs "pin")
          let rank ← pyInt (pyOr (lookupKey kvs "rank") (pyOr (lookupKey kvs "position") (JVal.num 0)))
          let rowOpt ←
            if kind == "user" then do
              let reg ← pyInt (pyOr (lookupKey kvs "registeredUsers") (pyOr (lookupKey kvs "count") (JVal.num 0)))
              let opens ← pyInt (pyOr (lookupKey kvs "appOpens") (JVal.num 0))
              pure (some (mkTopRow country state year quarter source name pin (JVal.num (rank : ℚ))
                "registered_users" (JVal.num (reg : ℚ)) "app_opens" (JVal.num (opens : ℚ))))
            else if kind == "transaction" then do
              let c ← pyInt (pyOr (lookupKey kvs "count") (pyOr (lookupKey kvs "transactions") (JVal.num 0)))
              let a ← pyFloat (pyOr (lookupKey kvs "amount") (pyOr (lookupKey kvs "value") (JVal.num 0)))
              pure (some (mkTopRow country state year quarter source name pin (JVal.num (rank : ℚ))
                "total_tx_count" (JVal.num (c : ℚ)) "total_tx_amount" (JVal.num a)))
            else if kind == "insurance" then do
              let p ← pyInt (pyOr (lookupKey kvs "count") (pyOr (lookupKey kvs "policies") (JVal.num 0)))
              let pr ← pyFloat (pyOr (lookupKey kvs "amount") (pyOr (lookupKey kvs "premium") (JVal.num 0)))
              pure (some (mkTopRow country state year quarter source name pin (JVal.num (rank : ℚ))
                "total_policies" (JVal.num (p : ℚ)) "total_premium" (JVal.num pr)))
            else pure none
          let rows ← topItems kind country state year quarter source rest
          pure (match rowOpt with
            | some r => r :: rows
            | none => rows)
      | _ => topItems kind country state year quarter source rest

/-- Loop of parse_top_json over all found lists. -/
def topLists (kind : String) (country state : Option String) (year quarter : Option Int)
    (source : String) : List (List JVal) → Except String (List Row)
  | [] => .ok []
  | lst :: rest => do
      let r1 ← topItems kind country state year quarter source lst
      let r2 ← topLists kind country state year quarter source rest
      pure (r1 ++ r2)

/-- Embedding of parse_top_json: every list found anywhere inside the
nested data dict is flattened and mined for ranked entries; when no list
was found and the payload itself is a list, that list is used. -/
def parse_top_json (j : JVal) (kind : String) (country state : Option String)
    (year quarter : Option Int) (source : String) : Except String (List Row) := do
  let data := pyOr (safe_get j ["data"]) (JVal.obj [])
  let lists0 := find_lists data
  let lists := if lists0.isEmpty then
      match data with
      | JVal.arr xs => [xs]
      | _ => []
    else lists0
  topLists kind country state year quarter source lists

/-- Source file as the load orchestrator sees it: its path string, the
pathlib parts of that path, and the outcome of opening and json-parsing it
under each of the two encodings the loader can attempt. -/
structure SrcFile where
  path : String
  parts : List String
  utf8 : Except String JVal
  latin1 : Except String JVal

/-- Read step of process_and_load: the utf-8 attempt, with one latin-1
retry on any failure; a failure of the retry is not caught and
propagates. -/
def loadJ (f : SrcFile) : Except String JVal :=
  match f.utf8 with
  | .ok j => .ok j
  | .error _ => f.latin1

/-- Python expression o or d for an optional string o and a fallback
string d (None and the empty string are falsy). -/
def orDefaultStr (o : Option String) (d : String) : String :=
  match o with
  | none => d
  | some s => if s == "" then d else s

/-- Batch handed to the row sink: the destination table and its rows (the
orchestrator performs a sink write only for a nonempty frame). -/
structure SinkWrite where
  table : String
  rows : List Row

/-- Per-file step of the aggregated loop of process_and_load: load the
JSON (with the one-retry policy), resolve the path context, and route by
path substring to the matching extractor; a nonempty row list becomes one
sink write. -/
def processAggFile (f : SrcFile) : Except String (List SinkWrite) := do
  let j ← loadJ f
  let ctx := parse_path_context f.parts
  let pp := pyReplace f.path "\\" "/"
  if strContains pp "/aggregated/transaction/" then do
    let rows ← parse_aggregated_transaction j (some (orDefaultStr ctx.country "india"))
      ctx.state ctx.district ctx.year ctx.quarter f.path
    pure (if rows.isEmpty then [] else [⟨"aggregated_transaction", rows⟩])
  else if strContains pp "/aggregated/user/" then do
    let rows ← parse_aggregated_user j (some (orDefaultStr ctx.country "india"))
      ctx.state ctx.district ctx.year ctx.quarter f.path
    pure (if rows.isEmpty then [] else [⟨"aggregated_user", rows⟩])
  else if strContains pp "/aggregated/insurance/" then do
    let rows ← parse_aggregated_insurance j (some (orDefaultStr ctx.country "india"))
      ctx.state ctx.district ctx.year ctx.quarter f.path
    pure (if rows.isEmpty then [] else [⟨"aggregated_insurance", rows⟩])
  else pure []

/-- Per-file step of the map loop of process_and_load. -/
def processMapFile (f : SrcFile) : Except String (List SinkWrite) := do
  let j ← loadJ f
  let ctx := parse_path_context f.parts
  let pp := pyReplace f.path "\\" "/"
  if strContains pp "/map/transaction/" then do
    let rows ← parse_map_json j "transaction" (some (orDefaultStr ctx.country "india"))
      ctx.state ctx.year ctx.quarter f.path
    pure (if rows.isEmpty then [] else [⟨"map_map", rows⟩])
  else if strContains pp "/map/user/" then do
    let rows ← parse_map_json j "user" (some (orDefaultStr ctx.country "india"))
      ctx.state ctx.year ctx.quarter f.path
    pure (if rows.isEmpty then [] else [⟨"map_user", rows⟩])
  else if strContains pp "/map/insurance/" then do
    let rows ← parse_map_json j "insurance" (some (orDefaultStr ctx.country "india"))
      ctx.state ctx.year ctx.quarter f.path
    pure (if rows.isEmpty then [] else [⟨"map_insurance", rows⟩])
  else pure []

/-- Per-file step of the top loop of process_and_load. -/
def processTopFile (f : SrcFile) : Except String (List SinkWrite) := do
  let j ← loadJ f
  let ctx := parse_path_context f.parts
  let pp := pyReplace f.path "\\" "/"
  if strContains pp "/top/transaction/" then do
    let rows ← parse_top_json j "transaction" (some (orDefaultStr ctx.country "india"))
      ctx.state ctx.year ctx.quarter f.path
    pure (if rows.isEmpty then [] else [⟨"top_map", rows⟩])
  else if strContains pp "/top/user/" then do
    let rows ← parse_top_json j "user" (some (orDefaultStr ctx.country "india"))
      ctx.state ctx.year ctx.quarter f.path
    pure (if rows.isEmpty then [] else [⟨"top_user", rows⟩])
  else if strContains pp "/top/insurance/" then do
    let rows ← parse_top_json j "insurance" (some (orDefaultStr ctx.country "india"))
      ctx.state ctx.year ctx.quarter f.path
    pure (if rows.isEmpty then [] else [⟨"top_insurance", rows⟩])
  else pure []

/-- Category loop of process_and_load over its sorted files: the sink
writes accumulate in order, and an uncaught per-file exception aborts the
whole iteration (nothing catches it). -/
def processCategory (step : SrcFile → Except String (List SinkWrite)) :
    List SrcFile → Except String (List SinkWrite)
  | [] => .ok []
  | f :: fs => do
      let w ← step f
      let ws ← processCategory step fs
      pure (w ++ ws)

/-- Files discovered per category by discover_json_files. -/
structure Discovered where
  aggregated : List SrcFile
  mapFiles : List SrcFile
  topFiles : List SrcFile

/-- Embedding of process_and_load: the three category loops in order, each
aborted by the first uncaught per-file exception. -/
def process_and_load (files : Discovered) : Except String (List SinkWrite) := do
  let a ← processCategory processAggFile files.aggregated
  let m ← processCategory processMapFile files.mapFiles
  let t ← processCategory processTopFile files.topFiles
  pure (a ++ m ++ t)

/-- A row carries a country value: the country column holds a non-empty
string (never null). -/
def rowHasCountry (r : Row) : Prop :=
  ∃ cstr, lookupKey r "country" = JVal.str cstr ∧ cstr ≠ ""

/-! Basic facts about the dict and coercion helpers, shared by the claim
theorems below. -/

theorem lookupKey_eq_null_of_not_contains (kvs : List (String × JVal)) (k : String)
    (h : containsKey kvs k = false) : lookupKey kvs k = JVal.null := by
  have h2 : kvs.find? (fun kv => kv.1 == k) = none := by
    apply List.find?_eq_none.mpr
    intro kv hkv hp
    have ht : containsKey kvs k = true := by
      unfold containsKey
      rw [List.any_eq_true]
      exact ⟨kv, hkv, hp⟩
    rw [ht] at h
    cases h
  unfold lookupKey
  rw [h2]

theorem containsKey_of_lookupKey_ne_null (kvs : List (String × JVal)) (k : String)
    (h : lookupKey kvs k ≠ JVal.null) : containsKey kvs k = true := by
  by_cases hc : containsKey kvs k = true
  · exact hc
  · exact absurd (lookupKey_eq_null_of_not_contains kvs k (by simpa using hc)) h

theorem pyOr_of_truthy (a b : JVal) (h : a.truthy = true) : pyOr a b = a := by
  unfold pyOr
  rw [h]
  simp

theorem pyOr_of_falsy (a b : JVal) (h : a.truthy = false) : pyOr a b = b := by
  unfold pyOr
  rw [h]
  simp

theorem pyInt_num_int (n : Int) : pyInt (JVal.num (n : ℚ)) = Except.ok n := by
  unfold pyInt ratTrunc
  simp [Rat.num_intCast, Rat.den_intCast, Int.tdiv_one]

/-- C6: an aggregated-user document whose data payload carries the
top-level summary shape with registeredUsers = 500 and no activeUsers key
yields exactly one row, with registered_users = 500 and active_users null
(not 0); the appOpens value is anything int()-coercible after the or-0
default. -/
theorem C6_registered500_active_null
    (country state district : Option String) (year quarter : Option Int) (source : String)
    (kvs : List (String × JVal)) (opens : Int)
    (hreg : lookupKey kvs "registeredUsers" = JVal.num 500)
    (hact : containsKey kvs "activeUsers" = false)
    (hopens : pyInt (pyOr (lookupKey kvs "appOpens") (JVal.num 0)) = Except.ok opens) :
    parse_aggregated_user (JVal.obj [("data", JVal.obj kvs)]) country state district year quarter source =
      Except.ok [mkAggUserRow country state district year quarter source
        (JVal.num 500) (JVal.num (opens : ℚ)) JVal.null] := by
  have hkne : kvs ≠ [] := by
    intro hk
    rw [hk] at hreg
    simp [lookupKey] at hreg
  have hcont : containsKey kvs "registeredUsers" = true :=
    containsKey_of_lookupKey_ne_null _ _ (by rw [hreg]; intro hx; cases hx)
  have hactnull : lookupKey kvs "activeUsers" = JVal.null :=
    lookupKey_eq_null_of_not_contains _ _ hact
  have hdata : pyOr (safe_get (JVal.obj [("data", JVal.obj kvs)]) ["data"]) (JVal.obj []) = JVal.obj kvs := by
    have : safe_get (JVal.obj [("data", JVal.obj kvs)]) ["data"] = JVal.obj kvs := by
      simp [safe_get, lookupKey, JVal.isNull]
    rw [this]
    apply pyOr_of_truthy
    simp [JVal.truthy, hkne]
  unfold parse_aggregated_user
  rw [hdata]
  simp only [hcont, Bool.true_or, eq_self_iff_true, if_true]
  rw [hreg, hactnull]
  have h500 : pyInt (pyOr (JVal.num 500) (JVal.num 0)) = Except.ok 500 := by
    rw [pyOr_of_truthy _ _ (by norm_num [JVal.truthy])]
    simpa using pyInt_num_int 500
  rw [h500, hopens]
  simp [JVal.isNull, Bind.bind, Except.bind, pure, Except.pure]

/-- Witness for C6 at a concrete single-key document. -/
theorem C6_registered500_active_null_witness :
    parse_aggregated_user (JVal.obj [("data", JVal.obj [("registeredUsers", JVal.num 500)])])
      (some "india") none none (some 2022) (some 1) "p" =
      Except.ok [mkAggUserRow (some "india") none none (some 2022) (some 1) "p"
        (JVal.num 500) (JVal.num 0) JVal.null] :=
  C6_registered500_active_null (some "india") none none (some 2022) (some 1) "p"
    [("registeredUsers", JVal.num 500)] 0 rfl rfl (by decide)

/-- Accumulator form of the usersByDevice summation: entries whose aliased
values are int()-coercible contribute their values to the two running
totals. -/
theorem sumDevices_spec (rv ov : JVal → Int) :
    ∀ (entries : List JVal),
    (∀ e ∈ entries, ∃ ekv, e = JVal.obj ekv ∧
      pyInt (pyOr (lookupKey ekv "registeredUsers") (pyOr (lookupKey ekv "count") (JVal.num 0))) = Except.ok (rv e) ∧
      pyInt (pyOr (lookupKey ekv "appOpens") (pyOr (lookupKey ekv "appOpensCount") (JVal.num 0))) = Except.ok (ov e)) →
    ∀ a b : Int, sumDevices entries a b =
      Except.ok (a + (entries.map rv).sum, b + (entries.map ov).sum) := by
  intro entries
  induction entries with
  | nil =>
      intro _ a b
      simp [sumDevices]
  | cons e rest ih =>
      intro hent a b
      obtain ⟨ekv, he, hr, ho⟩ := hent e (by simp)
      subst he
      unfold sumDevices
      simp only [pyGetE, Bind.bind, Except.bind]
      simp only [hr, ho]
      rw [ih (fun x hx => hent x (by simp [hx])) (a + rv (JVal.obj ekv)) (b + ov (JVal.obj ekv))]
      simp [List.sum_cons, add_assoc]

/-- C5: an aggregated-user document whose data payload has none of the
top-level summary keys but holds a nonempty usersByDevice list of
per-device breakdown dicts emits exactly one aggregate row whose
registered_users and app_opens are the sums over the entries, each read
under its aliased key names, and whose active_users is null. -/
theorem C5_device_fallback_sums
    (country state district : Option String) (year quarter : Option Int) (source : String)
    (kvs : List (String × JVal)) (entries : List JVal) (rv ov : JVal → Int)
    (h1 : containsKey kvs "registeredUsers" = false)
    (h2 : containsKey kvs "appOpens" = false)
    (h3 : containsKey kvs "activeUsers" = false)
    (hubd : lookupKey kvs "usersByDevice" = JVal.arr entries)
    (hne : entries ≠ [])
    (hent : ∀ e ∈ entries, ∃ ekv, e = JVal.obj ekv ∧
      pyInt (pyOr (lookupKey ekv "registeredUsers") (pyOr (lookupKey ekv "count") (JVal.num 0))) = Except.ok (rv e) ∧
      pyInt (pyOr (lookupKey ekv "appOpens") (pyOr (lookupKey ekv "appOpensCount") (JVal.num 0))) = Except.ok (ov e)) :
    parse_aggregated_user (JVal.obj [("data", JVal.obj kvs)]) country state district year quarter source =
      Except.ok [mkAggUserRow country state district year quarter source
        (JVal.num (((entries.map rv).sum : Int) : ℚ)) (JVal.num (((entries.map ov).sum : Int) : ℚ)) JVal.null] := by
  have hkne : kvs ≠ [] := by
    intro hk
    rw [hk] at hubd
    simp [lookupKey] at hubd
  have hdata : pyOr (safe_get (JVal.obj [("data", JVal.obj kvs)]) ["data"]) (JVal.obj []) = JVal.obj kvs := by
    have hs : safe_get (JVal.obj [("data", JVal.obj kvs)]) ["data"] = JVal.obj kvs := by
      simp [safe_get, lookupKey, JVal.isNull]
    rw [hs]
    apply pyOr_of_truthy
    simp [JVal.truthy, hkne]
  unfold parse_aggregated_user
  rw [hdata]
  simp only [h1, h2, h3, Bool.or_self, Bool.false_or, Bool.or_false, if_false]
  rw [hubd]
  simp only [List.isEmpty_eq_true, hne, if_false]
  rw [sumDevices_spec rv ov entries hent 0 0]
  simp [Bind.bind, Except.bind, pure, Except.pure]

/-- Witness for C5 at a concrete two-device document: 300 + 200 registered
users and 7 + 5 app opens, each read under a different alias. -/
theorem C5_device_fallback_sums_witness :
    parse_aggregated_user
      (JVal.obj [("data", JVal.obj [("usersByDevice", JVal.arr
        [JVal.obj [("registeredUsers", JVal.num 300), ("appOpens", JVal.num 7)],
         JVal.obj [("count", JVal.num 200), ("appOpensCount", JVal.num 5)]])])])
      (some "india") none none (some 2022) (some 1) "p" =
      Except.ok [mkAggUserRow (some "india") none none (some 2022) (some 1) "p"
        (JVal.num 500) (JVal.num 12) JVal.null] :=
  C5_device_fallback_sums (some "india") none none (some 2022) (some 1) "p"
    [("usersByDevice", JVal.arr
      [JVal.obj [("registeredUsers", JVal.num 300), ("appOpens", JVal.num 7)],
       JVal.obj [("count", JVal.num 200), ("appOpensCount", JVal.num 5)]])]
    [JVal.obj [("registeredUsers", JVal.num 300), ("appOpens", JVal.num 7)],
     JVal.obj [("count", JVal.num 200), ("appOpensCount", JVal.num 5)]]
    (fun e => match e with
      | JVal.obj (("registeredUsers", _) :: _) => 300
      | _ => 200)
    (fun e => match e with
      | JVal.obj (("registeredUsers", _) :: _) => 7
      | _ => 5)
    rfl rfl rfl rfl (by simp)
    (by
      intro e he
      simp only [List.mem_cons, List.not_mem_nil, or_false] at he
      rcases he with rfl | rfl
      · exact ⟨_, rfl, rfl, rfl⟩
      · exact ⟨_, rfl, rfl, rfl⟩)

/-- Instruments that are dicts not tagged TOTAL are passed over by the
TOTAL-search loop. -/
theorem findTOTAL_skip (pre rest : List JVal)
    (hpre : ∀ i ∈ pre, ∃ kv, i = JVal.obj kv ∧ (lookupKey kv "type").eqStr "TOTAL" = false) :
    findTOTAL (pre ++ rest) = findTOTAL rest := by
  induction pre with
  | nil => simp
  | cons i pre2 ih =>
      obtain ⟨kv, hi, ht⟩ := hpre i (by simp)
      subst hi
      rw [List.cons_append]
      conv_lhs => unfold findTOTAL
      simp only [pyGetE, Bind.bind, Except.bind, ht, Bool.false_eq_true, if_false]
      exact ih (fun x hx => hpre x (by simp [hx]))

/-- The TOTAL-search loop stops at the first TOTAL-tagged instrument and
takes its count and amount values. -/
theorem findTOTAL_hit (tkv : List (String × JVal)) (rest : List JVal)
    (ht : (lookupKey tkv "type").eqStr "TOTAL" = true) :
    findTOTAL (JVal.obj tkv :: rest) =
      Except.ok (some (lookupKey tkv "count", lookupKey tkv "amount")) := by
  unfold findTOTAL
  simp [pyGetE, Bind.bind, Except.bind, ht, pure, Except.pure]

/-- A loop over dict instruments none of which is TOTAL-tagged finds
nothing. -/
theorem findTOTAL_none (insts : List JVal)
    (h : ∀ i ∈ insts, ∃ kv, i = JVal.obj kv ∧ (lookupKey kv "type").eqStr "TOTAL" = false) :
    findTOTAL insts = Except.ok none := by
  have h2 := findTOTAL_skip insts [] h
  rw [List.append_nil] at h2
  rw [h2]
  rfl

/-- Accumulator form of the count fallback sum. -/
theorem sumCounts_spec (cnts : JVal → Int) :
    ∀ (insts : List JVal),
    (∀ i ∈ insts, ∃ kv, i = JVal.obj kv ∧
      pyInt (pyOr (lookupKey kv "count") (JVal.num 0)) = Except.ok (cnts i)) →
    ∀ acc : Int, sumCounts insts acc = Except.ok (acc + (insts.map cnts).sum) := by
  intro insts
  induction insts with
  | nil =>
      intro _ acc
      simp [sumCounts]
  | cons i rest ih =>
      intro h acc
      obtain ⟨kv, hi, hc⟩ := h i (by simp)
      subst hi
      unfold sumCounts
      simp only [pyGetE, Bind.bind, Except.bind]
      simp only [hc]
      rw [ih (fun x hx => h x (by simp [hx])) (acc + cnts (JVal.obj kv))]
      simp [List.sum_cons, add_assoc]

/-- Accumulator form of the amount fallback sum. -/
theorem sumAmounts_spec (amts : JVal → ℚ) :
    ∀ (insts : List JVal),
    (∀ i ∈ insts, ∃ kv, i = JVal.obj kv ∧
      pyFloat (pyOr (lookupKey kv "amount") (JVal.num 0)) = Except.ok (amts i)) →
    ∀ acc : ℚ, sumAmounts insts acc = Except.ok (acc + (insts.map amts).sum) := by
  intro insts
  induction insts with
  | nil =>
      intro _ acc
      simp [sumAmounts]
  | cons i rest ih =>
      intro h acc
      obtain ⟨kv, hi, hc⟩ := h i (by simp)
      subst hi
      unfold sumAmounts
      simp only [pyGetE, Bind.bind, Except.bind]
      simp only [hc]
      rw [ih (fun x hx => h x (by simp [hx])) (acc + amts (JVal.obj kv))]
      simp [List.sum_cons, add_assoc]

/-- Row loop of parse_aggregated_transaction emits exactly one row per
entry whenever it succeeds. -/
theorem aggTxRows_length (country state district : Option String) (year quarter : Option Int)
    (source : String) :
    ∀ (recs : List JVal) (rows : List Row),
    aggTxRows country state district year quarter source recs = Except.ok rows →
    rows.length = recs.length := by
  intro recs
  induction recs with
  | nil =>
      intro rows h
      unfold aggTxRows at h
      cases h
      rfl
  | cons rec rest ih =>
      intro rows h
      unfold aggTxRows at h
      cases h1 : aggTxOne rec with
      | error e =>
          rw [h1] at h
          simp [Bind.bind, Except.bind] at h
      | ok f =>
          rw [h1] at h
          simp only [Bind.bind, Except.bind] at h
          cases h2 : aggTxRows country state district year quarter source rest with
          | error e =>
              rw [h2] at h
              simp at h
          | ok rows2 =>
              rw [h2] at h
              simp only [pure, Except.pure, Except.ok.injEq] at h
              rw [← h]
              simp [ih rows2 h2]

/-- Entry computation when some instrument is TOTAL-tagged and carries
both values: the first such instrument supplies count and amount directly,
whatever instruments follow it. -/
theorem aggTxOne_total (rkv tkv : List (String × JVal)) (pre post : List JVal) (cv : Int) (av : ℚ)
    (hins : containsKey rkv "paymentInstruments" = true)
    (hlist : lookupKey rkv "paymentInstruments" = JVal.arr (pre ++ JVal.obj tkv :: post))
    (hpre : ∀ i ∈ pre, ∃ kv, i = JVal.obj kv ∧ (lookupKey kv "type").eqStr "TOTAL" = false)
    (ht : (lookupKey tkv "type").eqStr "TOTAL" = true)
    (hc : lookupKey tkv "count" = JVal.num (cv : ℚ))
    (ha : lookupKey tkv "amount" = JVal.num av) :
    aggTxOne (JVal.obj rkv) =
      Except.ok (lookupKey rkv "name", JVal.num (cv : ℚ), JVal.num av) := by
  unfold aggTxOne
  simp only [pyGetE, pyGetD, hins, if_true, Bind.bind, Except.bind]
  rw [hlist]
  simp only [pyIter]
  rw [findTOTAL_skip pre (JVal.obj tkv :: post) hpre, findTOTAL_hit tkv post ht]
  rw [hc, ha]
  have h1 : pyInt (JVal.num (cv : ℚ)) = Except.ok cv := pyInt_num_int cv
  simp [JVal.isNull, JVal.eqStr, h1, pyFloat, Bind.bind, Except.bind, pure, Except.pure]

/-- Entry computation when no instrument is TOTAL-tagged: both totals fall
back to the sums over all instruments. -/
theorem aggTxOne_fallback (rkv : List (String × JVal)) (insts : List JVal)
    (cnts : JVal → Int) (amts : JVal → ℚ)
    (hins : containsKey rkv "paymentInstruments" = true)
    (hlist : lookupKey rkv "paymentInstruments" = JVal.arr insts)
    (hnt : ∀ i ∈ insts, ∃ kv, i = JVal.obj kv ∧ (lookupKey kv "type").eqStr "TOTAL" = false ∧
      pyInt (pyOr (lookupKey kv "count") (JVal.num 0)) = Except.ok (cnts i) ∧
      pyFloat (pyOr (lookupKey kv "amount") (JVal.num 0)) = Except.ok (amts i)) :
    aggTxOne (JVal.obj rkv) = Except.ok (lookupKey rkv "name",
      JVal.num (((insts.map cnts).sum : Int) : ℚ), JVal.num ((insts.map amts).sum)) := by
  unfold aggTxOne
  simp only [pyGetE, pyGetD, hins, if_true, Bind.bind, Except.bind]
  rw [hlist]
  simp only [pyIter]
  rw [findTOTAL_none insts (fun i hi => by
    obtain ⟨kv, hik, hf, _, _⟩ := hnt i hi
    exact ⟨kv, hik, hf⟩)]
  rw [sumCounts_spec cnts insts (fun i hi => by
    obtain ⟨kv, hik, _, hcv, _⟩ := hnt i hi
    exact ⟨kv, hik, hcv⟩) 0]
  rw [sumAmounts_spec amts insts (fun i hi => by
    obtain ⟨kv, hik, _, _, hav⟩ := hnt i hi
    exact ⟨kv, hik, hav⟩) 0]
  simp only [zero_add]
  generalize (List.map cnts insts).sum = ncnt
  generalize (List.map amts insts).sum = qamt
  have h1 : pyInt (JVal.num (ncnt : ℚ)) = Except.ok ncnt := pyInt_num_int ncnt
  simp [JVal.isNull, JVal.eqStr, h1, pyFloat, Bind.bind, Except.bind, pure, Except.pure]

/-- Entry computation when the first TOTAL-tagged instrument carries no
count and no amount: both totals fall back to the sums over all
instruments (the TOTAL entry included, contributing its or-0 defaults). -/
theorem aggTxOne_total_missing (rkv tkv : List (String × JVal)) (pre post : List JVal)
    (cnts : JVal → Int) (amts : JVal → ℚ)
    (hins : containsKey rkv "paymentInstruments" = true)
    (hlist : lookupKey rkv "paymentInstruments" = JVal.arr (pre ++ JVal.obj tkv :: post))
    (hpre : ∀ i ∈ pre, ∃ kv, i = JVal.obj kv ∧ (lookupKey kv "type").eqStr "TOTAL" = false)
    (ht : (lookupKey tkv "type").eqStr "TOTAL" = true)
    (hc : lookupKey tkv "count" = JVal.null)
    (ha : lookupKey tkv "amount" = JVal.null)
    (hall : ∀ i ∈ pre ++ JVal.obj tkv :: post, ∃ kv, i = JVal.obj kv ∧
      pyInt (pyOr (lookupKey kv "count") (JVal.num 0)) = Except.ok (cnts i) ∧
      pyFloat (pyOr (lookupKey kv "amount") (JVal.num 0)) = Except.ok (amts i)) :
    aggTxOne (JVal.obj rkv) = Except.ok (lookupKey rkv "name",
      JVal.num ((((pre ++ JVal.obj tkv :: post).map cnts).sum : Int) : ℚ),
      JVal.num (((pre ++ JVal.obj tkv :: post).map amts).sum)) := by
  unfold aggTxOne
  simp only [pyGetE, pyGetD, hins, if_true, Bind.bind, Except.bind]
  rw [hlist]
  simp only [pyIter]
  rw [findTOTAL_skip pre _ hpre, findTOTAL_hit tkv post ht, hc, ha]
  rw [sumCounts_spec cnts (pre ++ JVal.obj tkv :: post) (fun i hi => by
    obtain ⟨kv, hik, hcv, _⟩ := hall i hi
    exact ⟨kv, hik, hcv⟩) 0]
  rw [sumAmounts_spec amts (pre ++ JVal.obj tkv :: post) (fun i hi => by
    obtain ⟨kv, hik, _, hav⟩ := hall i hi
    exact ⟨kv, hik, hav⟩) 0]
  simp only [zero_add]
  generalize (List.map cnts (pre ++ JVal.obj tkv :: post)).sum = ncnt
  generalize (List.map amts (pre ++ JVal.obj tkv :: post)).sum = qamt
  have h1 : pyInt (JVal.num (ncnt : ℚ)) = Except.ok ncnt := pyInt_num_int ncnt
  simp [JVal.isNull, JVal.eqStr, h1, pyFloat, Bind.bind, Except.bind, pure, Except.pure]

/-- Shape of the whole extractor run on a document carrying exactly one
transaction-type entry. -/
theorem parse_aggTx_single (country state district : Option String) (year quarter : Option Int)
    (source : String) (rkv : List (String × JVal)) (t cn am : JVal)
    (hone : aggTxOne (JVal.obj rkv) = Except.ok (t, cn, am)) :
    parse_aggregated_transaction
      (JVal.obj [("data", JVal.obj [("transactionData", JVal.arr [JVal.obj rkv])])])
      country state district year quarter source =
      Except.ok [mkAggTxRow country state district year quarter source t cn am] := by
  unfold parse_aggregated_transaction
  have hdata : pyOr (safe_get
      (JVal.obj [("data", JVal.obj [("transactionData", JVal.arr [JVal.obj rkv])])])
      ["data", "transactionData"]) (JVal.arr []) = JVal.arr [JVal.obj rkv] := by
    simp [safe_get, lookupKey, JVal.isNull, pyOr, JVal.truthy]
  rw [hdata]
  simp [pyIter, Bind.bind, Except.bind, aggTxRows, hone, pure, Except.pure]

/-- C3 (amended): for every transaction-type entry, (1) when some payment
instrument is TOTAL-tagged and that first TOTAL instrument carries count
and amount values, the emitted row takes them directly from it, ignoring
the instruments after it; (2) when no instrument is TOTAL-tagged, the
emitted count and amount are the sums over all instruments (so counts 10
and 20 yield 30); (3) exactly one row is emitted per entry whenever the
extractor succeeds. A count or amount missing on the TOTAL instrument
falls back to the sum instead of being taken directly (see the
counterexample). -/
theorem C3_total_direct_else_sum :
    (∀ (country state district : Option String) (year quarter : Option Int) (source : String)
       (rkv tkv : List (String × JVal)) (pre post : List JVal) (cv : Int) (av : ℚ),
       containsKey rkv "paymentInstruments" = true →
       lookupKey rkv "paymentInstruments" = JVal.arr (pre ++ JVal.obj tkv :: post) →
       (∀ i ∈ pre, ∃ kv, i = JVal.obj kv ∧ (lookupKey kv "type").eqStr "TOTAL" = false) →
       (lookupKey tkv "type").eqStr "TOTAL" = true →
       lookupKey tkv "count" = JVal.num (cv : ℚ) →
       lookupKey tkv "amount" = JVal.num av →
       parse_aggregated_transaction
         (JVal.obj [("data", JVal.obj [("transactionData", JVal.arr [JVal.obj rkv])])])
         country state district year quarter source =
         Except.ok [mkAggTxRow country state district year quarter source (lookupKey rkv "name")
           (JVal.num (cv : ℚ)) (JVal.num av)]) ∧
    (∀ (country state district : Option String) (year quarter : Option Int) (source : String)
       (rkv : List (String × JVal)) (insts : List JVal) (cnts : JVal → Int) (amts : JVal → ℚ),
       containsKey rkv "paymentInstruments" = true →
       lookupKey rkv "paymentInstruments" = JVal.arr insts →
       (∀ i ∈ insts, ∃ kv, i = JVal.obj kv ∧ (lookupKey kv "type").eqStr "TOTAL" = false ∧
         pyInt (pyOr (lookupKey kv "count") (JVal.num 0)) = Except.ok (cnts i) ∧
         pyFloat (pyOr (lookupKey kv "amount") (JVal.num 0)) = Except.ok (amts i)) →
       parse_aggregated_transaction
         (JVal.obj [("data", JVal.obj [("transactionData", JVal.arr [JVal.obj rkv])])])
         country state district year quarter source =
         Except.ok [mkAggTxRow country state district year quarter source (lookupKey rkv "name")
           (JVal.num (((insts.map cnts).sum : Int) : ℚ)) (JVal.num ((insts.map amts).sum))]) ∧
    (∀ (j : JVal) (country state district : Option String) (year quarter : Option Int)
       (source : String) (recs : List JVal) (rows : List Row),
       pyOr (safe_get j ["data", "transactionData"]) (JVal.arr []) = JVal.arr recs →
       parse_aggregated_transaction j country state district year quarter source = Except.ok rows →
       rows.length = recs.length) := by
  refine ⟨?_, ?_, ?_⟩
  · intro country state district year quarter source rkv tkv pre post cv av hins hlist hpre ht hc ha
    exact parse_aggTx_single country state district year quarter source rkv _ _ _
      (aggTxOne_total rkv tkv pre post cv av hins hlist hpre ht hc ha)
  · intro country state district year quarter source rkv insts cnts amts hins hlist hnt
    exact parse_aggTx_single country state district year quarter source rkv _ _ _
      (aggTxOne_fallback rkv insts cnts amts hins hlist hnt)
  · intro j country state district year quarter source recs rows hdata hrun
    unfold parse_aggregated_transaction at hrun
    rw [hdata] at hrun
    simp only [pyIter, Bind.bind, Except.bind] at hrun
    exact aggTxRows_length country state district year quarter source recs rows hrun

/-- Witness for C3: a TOTAL instrument (count 100, amount 5000) is taken
directly even though another instrument (count 60, amount 3000) follows,
and a no-TOTAL pair of counts 10 and 20 sums to 30. -/
theorem C3_total_direct_else_sum_witness :
    parse_aggregated_transaction
      (JVal.obj [("data", JVal.obj [("transactionData", JVal.arr [JVal.obj
        [("name", JVal.str "Recharge"), ("paymentInstruments", JVal.arr
          [JVal.obj [("type", JVal.str "TOTAL"), ("count", JVal.num 100), ("amount", JVal.num 5000)],
           JVal.obj [("type", JVal.str "PhonePe"), ("count", JVal.num 60), ("amount", JVal.num 3000)]])]])])])
      (some "india") none none (some 2022) (some 1) "p" =
      Except.ok [mkAggTxRow (some "india") none none (some 2022) (some 1) "p"
        (JVal.str "Recharge") (JVal.num 100) (JVal.num 5000)] ∧
    parse_aggregated_transaction
      (JVal.obj [("data", JVal.obj [("transactionData", JVal.arr [JVal.obj
        [("name", JVal.str "P2P"), ("paymentInstruments", JVal.arr
          [JVal.obj [("count", JVal.num 10), ("amount", JVal.num 1)],
           JVal.obj [("count", JVal.num 20)]])]])])])
      (some "india") none none (some 2022) (some 1) "p" =
      Except.ok [mkAggTxRow (some "india") none none (some 2022) (some 1) "p"
        (JVal.str "P2P") (JVal.num 30) (JVal.num 1)] := by
  constructor
  · exact C3_total_direct_else_sum.1 (some "india") none none (some 2022) (some 1) "p"
      [("name", JVal.str "Recharge"), ("paymentInstruments", JVal.arr
        [JVal.obj [("type", JVal.str "TOTAL"), ("count", JVal.num 100), ("amount", JVal.num 5000)],
         JVal.obj [("type", JVal.str "PhonePe"), ("count", JVal.num 60), ("amount", JVal.num 3000)]])]
      [("type", JVal.str "TOTAL"), ("count", JVal.num 100), ("amount", JVal.num 5000)]
      [] [JVal.obj [("type", JVal.str "PhonePe"), ("count", JVal.num 60), ("amount", JVal.num 3000)]]
      100 5000 rfl rfl (by simp) rfl rfl rfl
  · have h := C3_total_direct_else_sum.2.1 (some "india") none none (some 2022) (some 1) "p"
      [("name", JVal.str "P2P"), ("paymentInstruments", JVal.arr
        [JVal.obj [("count", JVal.num 10), ("amount", JVal.num 1)],
         JVal.obj [("count", JVal.num 20)]])]
      [JVal.obj [("count", JVal.num 10), ("amount", JVal.num 1)],
       JVal.obj [("count", JVal.num 20)]]
      (fun i => match i with
        | JVal.obj [_, _] => 10
        | _ => 20)
      (fun i => match i with
        | JVal.obj [_, _] => 1
        | _ => 0)
      rfl rfl
      (by
        intro i hi
        simp only [List.mem_cons, List.not_mem_nil, or_false] at hi
        rcases hi with rfl | rfl
        · exact ⟨_, rfl, rfl, rfl, rfl⟩
        · exact ⟨_, rfl, rfl, rfl, rfl⟩)
    refine h.trans ?_
    simp only [List.map_cons, List.map_nil, List.sum_cons, List.sum_nil]
    norm_num [lookupKey, List.find?]

/-- Counterexample to C3 as stated: when the first TOTAL-tagged instrument
carries no count and no amount, the emitted row does not take its values
from that instrument (which would give null): both fall back to the sums
over all instruments, here 10 and 2. -/
theorem C3_counterexample :
    parse_aggregated_transaction
      (JVal.obj [("data", JVal.obj [("transactionData", JVal.arr [JVal.obj
        [("name", JVal.str "P2P"), ("paymentInstruments", JVal.arr
          [JVal.obj [("type", JVal.str "TOTAL")],
           JVal.obj [("type", JVal.str "X"), ("count", JVal.num 10), ("amount", JVal.num 2)]])]])])])
      (some "india") none none (some 2022) (some 1) "p" =
      Except.ok [mkAggTxRow (some "india") none none (some 2022) (some 1) "p"
        (JVal.str "P2P") (JVal.num 10) (JVal.num 2)] ∧
    JVal.num 10 ≠ JVal.null := by
  constructor
  · have h := parse_aggTx_single (some "india") none none (some 2022) (some 1) "p"
      [("name", JVal.str "P2P"), ("paymentInstruments", JVal.arr
        [JVal.obj [("type", JVal.str "TOTAL")],
         JVal.obj [("type", JVal.str "X"), ("count", JVal.num 10), ("amount", JVal.num 2)]])]
      _ _ _
      (aggTxOne_total_missing _ [("type", JVal.str "TOTAL")] []
        [JVal.obj [("type", JVal.str "X"), ("count", JVal.num 10), ("amount", JVal.num 2)]]
        (fun i => match i with
          | JVal.obj [_] => 0
          | _ => 10)
        (fun i => match i with
          | JVal.obj [_] => 0
          | _ => 2)
        rfl rfl (by simp) rfl rfl rfl
        (by
          intro i hi
          simp only [List.nil_append, List.mem_cons, List.not_mem_nil, or_false] at hi
          rcases hi with rfl | rfl
          · exact ⟨_, rfl, rfl, rfl⟩
          · exact ⟨_, rfl, rfl, rfl⟩))
    refine h.trans ?_
    simp only [List.nil_append, List.map_cons, List.map_nil, List.sum_cons, List.sum_nil]
    norm_num [lookupKey, List.find?]
  · intro h
    exact JVal.noConfusion h

/-- Shape of the map transaction extractor run on a document carrying one
hoverDataList entry. -/
theorem parse_mapTx_single (country state : Option String) (year quarter : Option Int)
    (source : String) (ikv : List (String × JVal)) (n c a : JVal)
    (hone : mapTxOne ikv = Except.ok (n, c, a)) :
    parse_map_json (JVal.obj [("data", JVal.obj [("hoverDataList", JVal.arr [JVal.obj ikv])])])
      "transaction" country state year quarter source =
      Except.ok [mkMapTxRow country state year quarter source n c a] := by
  unfold parse_map_json
  have hdata : pyOr (safe_get
      (JVal.obj [("data", JVal.obj [("hoverDataList", JVal.arr [JVal.obj ikv])])]) ["data"])
      (JVal.obj []) = JVal.obj [("hoverDataList", JVal.arr [JVal.obj ikv])] := by
    simp [safe_get, lookupKey, JVal.isNull, pyOr, JVal.truthy]
  rw [hdata]
  have hcand : mapTxCandidates (JVal.obj [("hoverDataList", JVal.arr [JVal.obj ikv])]) =
      [[JVal.obj ikv]] := by
    simp [mapTxCandidates, containsKey, lookupKey]
  simp only [String.reduceEq, if_true, reduceIte, hcand]
  simp [mapTxCands, mapTxItems, hone, Bind.bind, Except.bind, pure, Except.pure]

/-- Entry computation of the map transaction branch when every measurement
alias is falsy (in particular entirely absent): the empty-dict default and
the or-0 defaults produce the number 0 for both totals. -/
theorem mapTxOne_absent_zero (ikv : List (String × JVal))
    (h1 : (lookupKey ikv "metric").truthy = false)
    (h2 : (lookupKey ikv "values").truthy = false)
    (h3 : (lookupKey ikv "value").truthy = false) :
    mapTxOne ikv = Except.ok
      (pyOr (lookupKey ikv "name") (pyOr (lookupKey ikv "district")
        (pyOr (lookupKey ikv "state") (JVal.str "Unknown"))),
       JVal.num 0, JVal.num 0) := by
  unfold mapTxOne
  rw [pyOr_of_falsy _ _ h1, pyOr_of_falsy _ _ h2, pyOr_of_falsy _ _ h3]
  simp [lookupKey, pyOr, JVal.truthy, pyInt, pyFloat, ratTrunc,
    Bind.bind, Except.bind, pure, Except.pure]

/-- Entry computation of the map transaction branch when the measurement
group is present (a truthy dict) but the count and amount values inside it
are missing or falsy: the or-0 defaults again produce 0. -/
theorem mapTxOne_present_empty_zero (ikv mkv : List (String × JVal))
    (hm : lookupKey ikv "metric" = JVal.obj mkv)
    (hmt : (JVal.obj mkv).truthy = true)
    (hc1 : (lookupKey mkv "count").truthy = false)
    (hc2 : (lookupKey mkv "totalCount").truthy = false)
    (ha1 : (lookupKey mkv "amount").truthy = false)
    (ha2 : (lookupKey mkv "totalAmount").truthy = false) :
    mapTxOne ikv = Except.ok
      (pyOr (lookupKey ikv "name") (pyOr (lookupKey ikv "district")
        (pyOr (lookupKey ikv "state") (JVal.str "Unknown"))),
       JVal.num 0, JVal.num 0) := by
  unfold mapTxOne
  rw [hm, pyOr_of_truthy _ _ hmt]
  simp only [Bind.bind, Except.bind, pure, Except.pure]
  rw [pyOr_of_falsy _ _ hc1, pyOr_of_falsy _ _ hc2]
  rw [pyOr_of_falsy _ _ ha1, pyOr_of_falsy _ _ ha2]
  simp [pyInt, pyFloat, ratTrunc, Bind.bind, Except.bind, pure, Except.pure]

/-- Entry computation of the map transaction branch when an alias key
holds a truthy non-dict value: the isinstance guard fails and both totals
are None. -/
theorem mapTxOne_nondict_null (ikv : List (String × JVal)) (v : JVal)
    (hm : lookupKey ikv "metric" = v)
    (hvt : v.truthy = true)
    (hvo : v.isObj = false) :
    mapTxOne ikv = Except.ok
      (pyOr (lookupKey ikv "name") (pyOr (lookupKey ikv "district")
        (pyOr (lookupKey ikv "state") (JVal.str "Unknown"))),
       JVal.null, JVal.null) := by
  unfold mapTxOne
  rw [hm, pyOr_of_truthy _ _ hvt]
  cases v with
  | null => cases hvt
  | bool b => simp [Bind.bind, Except.bind, pure, Except.pure]
  | num q => simp [Bind.bind, Except.bind, pure, Except.pure]
  | str s => simp [Bind.bind, Except.bind, pure, Except.pure]
  | arr xs => simp [Bind.bind, Except.bind, pure, Except.pure]
  | obj kvs => cases hvo

/-- C2 (amended): in map transaction extraction, a hover entry whose
entire measurement group is absent (all of metric/values/value falsy)
yields 0, not null, for total_tx_count and total_tx_amount — the
extractor substitutes an empty dict; the 0 default equally applies when
the group is present but its count/amount values are missing or empty;
null arises only when an alias key holds a truthy non-dict value. -/
theorem C2_absent_group_zero_not_null :
    (∀ (country state : Option String) (year quarter : Option Int) (source : String)
       (ikv : List (String × JVal)),
       (lookupKey ikv "metric").truthy = false →
       (lookupKey ikv "values").truthy = false →
       (lookupKey ikv "value").truthy = false →
       parse_map_json (JVal.obj [("data", JVal.obj [("hoverDataList", JVal.arr [JVal.obj ikv])])])
         "transaction" country state year quarter source =
         Except.ok [mkMapTxRow country state year quarter source
           (pyOr (lookupKey ikv "name") (pyOr (lookupKey ikv "district")
             (pyOr (lookupKey ikv "state") (JVal.str "Unknown"))))
           (JVal.num 0) (JVal.num 0)]) ∧
    (∀ (country state : Option String) (year quarter : Option Int) (source : String)
       (ikv mkv : List (String × JVal)),
       lookupKey ikv "metric" = JVal.obj mkv →
       (JVal.obj mkv).truthy = true →
       (lookupKey mkv "count").truthy = false →
       (lookupKey mkv "totalCount").truthy = false →
       (lookupKey mkv "amount").truthy = false →
       (lookupKey mkv "totalAmount").truthy = false →
       parse_map_json (JVal.obj [("data", JVal.obj [("hoverDataList", JVal.arr [JVal.obj ikv])])])
         "transaction" country state year quarter source =
         Except.ok [mkMapTxRow country state year quarter source
           (pyOr (lookupKey ikv "name") (pyOr (lookupKey ikv "district")
             (pyOr (lookupKey ikv "state") (JVal.str "Unknown"))))
           (JVal.num 0) (JVal.num 0)]) ∧
    (∀ (country state : Option String) (year quarter : Option Int) (source : String)
       (ikv : List (String × JVal)) (v : JVal),
       lookupKey ikv "metric" = v →
       v.truthy = true →
       v.isObj = false →
       parse_map_json (JVal.obj [("data", JVal.obj [("hoverDataList", JVal.arr [JVal.obj ikv])])])
         "transaction" country state year quarter source =
         Except.ok [mkMapTxRow country state year quarter source
           (pyOr (lookupKey ikv "name") (pyOr (lookupKey ikv "district")
             (pyOr (lookupKey ikv "state") (JVal.str "Unknown"))))
           JVal.null JVal.null]) := by
  refine ⟨?_, ?_, ?_⟩
  · intro country state year quarter source ikv h1 h2 h3
    exact parse_mapTx_single country state year quarter source ikv _ _ _
      (mapTxOne_absent_zero ikv h1 h2 h3)
  · intro country state year quarter source ikv mkv hm hmt hc1 hc2 ha1 ha2
    exact parse_mapTx_single country state year quarter source ikv _ _ _
      (mapTxOne_present_empty_zero ikv mkv hm hmt hc1 hc2 ha1 ha2)
  · intro country state year quarter source ikv v hm hvt hvo
    exact parse_mapTx_single country state year quarter source ikv _ _ _
      (mapTxOne_nondict_null ikv v hm hvt hvo)

/-- Witness for C2: an entry with no measurement keys at all yields zeros,
an entry with a present-but-valueless metric dict yields zeros, and an
entry whose metric is a nonempty string yields nulls. -/
theorem C2_absent_group_zero_not_null_witness :
    parse_map_json (JVal.obj [("data", JVal.obj [("hoverDataList",
        JVal.arr [JVal.obj [("name", JVal.str "Pune")]])])])
      "transaction" (some "india") (some "Maharashtra") (some 2022) (some 1) "p" =
      Except.ok [mkMapTxRow (some "india") (some "Maharashtra") (some 2022) (some 1) "p"
        (JVal.str "Pune") (JVal.num 0) (JVal.num 0)] ∧
    parse_map_json (JVal.obj [("data", JVal.obj [("hoverDataList",
        JVal.arr [JVal.obj [("name", JVal.str "Pune"),
          ("metric", JVal.obj [("count", JVal.null)])]])])])
      "transaction" (some "india") (some "Maharashtra") (some 2022) (some 1) "p" =
      Except.ok [mkMapTxRow (some "india") (some "Maharashtra") (some 2022) (some 1) "p"
        (JVal.str "Pune") (JVal.num 0) (JVal.num 0)] ∧
    parse_map_json (JVal.obj [("data", JVal.obj [("hoverDataList",
        JVal.arr [JVal.obj [("name", JVal.str "Pune"), ("metric", JVal.str "n/a")]])])])
      "transaction" (some "india") (some "Maharashtra") (some 2022) (some 1) "p" =
      Except.ok [mkMapTxRow (some "india") (some "Maharashtra") (some 2022) (some 1) "p"
        (JVal.str "Pune") JVal.null JVal.null] :=
  ⟨C2_absent_group_zero_not_null.1 (some "india") (some "Maharashtra") (some 2022) (some 1) "p"
      [("name", JVal.str "Pune")] rfl rfl rfl,
   C2_absent_group_zero_not_null.2.1 (some "india") (some "Maharashtra") (some 2022) (some 1) "p"
      [("name", JVal.str "Pune"), ("metric", JVal.obj [("count", JVal.null)])]
      [("count", JVal.null)] rfl rfl rfl rfl rfl rfl,
   C2_absent_group_zero_not_null.2.2 (some "india") (some "Maharashtra") (some 2022) (some 1) "p"
      [("name", JVal.str "Pune"), ("metric", JVal.str "n/a")] (JVal.str "n/a") rfl rfl rfl⟩

/-- Counterexample to C2 as stated: a hover entry whose measurement group
is entirely absent yields the number 0 for both totals, not null. -/
theorem C2_counterexample :
    parse_map_json (JVal.obj [("data", JVal.obj [("hoverDataList",
        JVal.arr [JVal.obj [("name", JVal.str "Pune")]])])])
      "transaction" (some "india") (some "Maharashtra") (some 2022) (some 1) "px" =
      Except.ok [mkMapTxRow (some "india") (some "Maharashtra") (some 2022) (some 1) "px"
        (JVal.str "Pune") (JVal.num 0) (JVal.num 0)] ∧
    JVal.num 0 ≠ JVal.null := by
  constructor
  · rfl
  · intro h
    exact JVal.noConfusion h

/-- Empty-object run of the aggregated transaction extractor. -/
theorem parse_aggregated_transaction_empty (country state district : Option String)
    (year quarter : Option Int) (source : String) :
    parse_aggregated_transaction (JVal.obj []) country state district year quarter source =
      Except.ok [] := rfl

/-- Empty-object run of the aggregated user extractor. -/
theorem parse_aggregated_user_empty (country state district : Option String)
    (year quarter : Option Int) (source : String) :
    parse_aggregated_user (JVal.obj []) country state district year quarter source =
      Except.ok [] := rfl

/-- Empty-object run of the aggregated insurance extractor. -/
theorem parse_aggregated_insurance_empty (country state district : Option String)
    (year quarter : Option Int) (source : String) :
    parse_aggregated_insurance (JVal.obj []) country state district year quarter source =
      Except.ok [] := rfl

/-- Empty-object run of the map extractor, for every kind string. -/
theorem parse_map_json_empty (kind : String) (country state : Option String)
    (year quarter : Option Int) (source : String) :
    parse_map_json (JVal.obj []) kind country state year quarter source = Except.ok [] := by
  unfold parse_map_json
  simp [safe_get, pyOr, JVal.truthy, Bind.bind, Except.bind, pure, Except.pure,
    mapTxCandidates, mapTxCands, mapInsCandidates, mapInsCands, mapUserItems, pyGetE, lookupKey]

/-- Empty-object run of the top extractor, for every kind string. -/
theorem parse_top_json_empty (kind : String) (country state : Option String)
    (year quarter : Option Int) (source : String) :
    parse_top_json (JVal.obj []) kind country state year quarter source = Except.ok [] := by
  unfold parse_top_json
  simp [safe_get, pyOr, JVal.truthy, Bind.bind, Except.bind, pure, Except.pure,
    find_lists, findListsKVs, topLists]

/-- Per-file aggregated step on a file whose JSON parses to the empty
object: no write, no exception. -/
theorem processAggFile_empty (f : SrcFile) (h : loadJ f = Except.ok (JVal.obj [])) :
    processAggFile f = Except.ok [] := by
  unfold processAggFile
  rw [h]
  simp [Bind.bind, Except.bind, pure, Except.pure, parse_aggregated_transaction_empty,
    parse_aggregated_user_empty, parse_aggregated_insurance_empty]

/-- Per-file map step on a file whose JSON parses to the empty object. -/
theorem processMapFile_empty (f : SrcFile) (h : loadJ f = Except.ok (JVal.obj [])) :
    processMapFile f = Except.ok [] := by
  unfold processMapFile
  rw [h]
  simp [Bind.bind, Except.bind, pure, Except.pure, parse_map_json_empty]

/-- Per-file top step on a file whose JSON parses to the empty object. -/
theorem processTopFile_empty (f : SrcFile) (h : loadJ f = Except.ok (JVal.obj [])) :
    processTopFile f = Except.ok [] := by
  unfold processTopFile
  rw [h]
  simp [Bind.bind, Except.bind, pure, Except.pure, parse_top_json_empty]

/-- A per-file step that writes nothing leaves the rest of the category
loop unchanged. -/
theorem processCategory_skip (step : SrcFile → Except String (List SinkWrite))
    (f : SrcFile) (fs : List SrcFile) (h : step f = Except.ok []) :
    processCategory step (f :: fs) = processCategory step fs := by
  conv_lhs => unfold processCategory
  rw [h]
  cases h2 : processCategory step fs with
  | error e => simp [Bind.bind, Except.bind, h2]
  | ok ws => simp [Bind.bind, Except.bind, h2, pure, Except.pure]

/-- C7: a parsed document that is the empty JSON object yields zero rows
from the extractor of every category and kind, with no exception; a file
whose JSON is the empty object triggers no sink write in any category loop
and processing of the remaining files continues unchanged. -/
theorem C7_empty_object_zero_rows :
    (∀ (country state district : Option String) (year quarter : Option Int)
       (source kind : String),
      parse_aggregated_transaction (JVal.obj []) country state district year quarter source = Except.ok [] ∧
      parse_aggregated_user (JVal.obj []) country state district year quarter source = Except.ok [] ∧
      parse_aggregated_insurance (JVal.obj []) country state district year quarter source = Except.ok [] ∧
      parse_map_json (JVal.obj []) kind country state year quarter source = Except.ok [] ∧
      parse_top_json (JVal.obj []) kind country state year quarter source = Except.ok []) ∧
    (∀ (f : SrcFile) (fs : List SrcFile),
      loadJ f = Except.ok (JVal.obj []) →
      processAggFile f = Except.ok [] ∧
      processMapFile f = Except.ok [] ∧
      processTopFile f = Except.ok [] ∧
      processCategory processAggFile (f :: fs) = processCategory processAggFile fs ∧
      processCategory processMapFile (f :: fs) = processCategory processMapFile fs ∧
      processCategory processTopFile (f :: fs) = processCategory processTopFile fs) := by
  constructor
  · intro country state district year quarter source kind
    exact ⟨parse_aggregated_transaction_empty country state district year quarter source,
      parse_aggregated_user_empty country state district year quarter source,
      parse_aggregated_insurance_empty country state district year quarter source,
      parse_map_json_empty kind country state year quarter source,
      parse_top_json_empty kind country state year quarter source⟩
  · intro f fs h
    refine ⟨processAggFile_empty f h, processMapFile_empty f h, processTopFile_empty f h,
      processCategory_skip _ f fs (processAggFile_empty f h),
      processCategory_skip _ f fs (processMapFile_empty f h),
      processCategory_skip _ f fs (processTopFile_empty f h)⟩

/-- Witness for C7 at a concrete empty-object file followed by another
file. -/
theorem C7_empty_object_zero_rows_witness :
    processCategory processAggFile
      [SrcFile.mk "pulse/data/aggregated/transaction/country/india/2022/1.json"
        ["pulse", "data", "aggregated", "transaction", "country", "india", "2022", "1.json"]
        (Except.ok (JVal.obj [])) (Except.ok (JVal.obj [])),
       SrcFile.mk "pulse/data/aggregated/transaction/country/india/2022/2.json"
        ["pulse", "data", "aggregated", "transaction", "country", "india", "2022", "2.json"]
        (Except.error "boom") (Except.ok (JVal.obj []))] =
    processCategory processAggFile
      [SrcFile.mk "pulse/data/aggregated/transaction/country/india/2022/2.json"
        ["pulse", "data", "aggregated", "transaction", "country", "india", "2022", "2.json"]
        (Except.error "boom") (Except.ok (JVal.obj []))] :=
  ((C7_empty_object_zero_rows.2
    (SrcFile.mk "pulse/data/aggregated/transaction/country/india/2022/1.json"
      ["pulse", "data", "aggregated", "transaction", "country", "india", "2022", "1.json"]
      (Except.ok (JVal.obj [])) (Except.ok (JVal.obj [])))
    [SrcFile.mk "pulse/data/aggregated/transaction/country/india/2022/2.json"
      ["pulse", "data", "aggregated", "transaction", "country", "india", "2022", "2.json"]
      (Except.error "boom") (Except.ok (JVal.obj []))]
    rfl).2.2.2).1

/-- C1 (amended): a source file whose utf-8 read or parse fails gets
exactly one encoding-fallback retry, with latin-1; when that retry also
fails, the exception is not caught: the per-file step propagates it and
the category loop aborts with that error, leaving the remaining files
unprocessed — the run does not log and continue. -/
theorem C1_single_retry_then_abort (f : SrcFile) (fs : List SrcFile) (e1 e2 : String)
    (h1 : f.utf8 = Except.error e1) :
    loadJ f = f.latin1 ∧
    (f.latin1 = Except.error e2 →
      processAggFile f = Except.error e2 ∧
      processCategory processAggFile (f :: fs) = Except.error e2) := by
  have hl : loadJ f = f.latin1 := by
    unfold loadJ
    rw [h1]
  refine ⟨hl, ?_⟩
  intro h2
  have hstep : processAggFile f = Except.error e2 := by
    unfold processAggFile
    rw [hl, h2]
    rfl
  refine ⟨hstep, ?_⟩
  conv_lhs => unfold processCategory
  rw [hstep]
  rfl

/-- Witness for C1 at a concrete pair of files: the first fails both
reads, the second would load. -/
theorem C1_single_retry_then_abort_witness :
    loadJ (SrcFile.mk "pulse/data/aggregated/transaction/country/india/2022/1.json"
      ["pulse", "data", "aggregated", "transaction", "country", "india", "2022", "1.json"]
      (Except.error "utf8 failed") (Except.error "latin1 failed")) =
      Except.error "latin1 failed" ∧
    processCategory processAggFile
      [SrcFile.mk "pulse/data/aggregated/transaction/country/india/2022/1.json"
        ["pulse", "data", "aggregated", "transaction", "country", "india", "2022", "1.json"]
        (Except.error "utf8 failed") (Except.error "latin1 failed"),
       SrcFile.mk "pulse/data/aggregated/transaction/country/india/2022/2.json"
        ["pulse", "data", "aggregated", "transaction", "country", "india", "2022", "2.json"]
        (Except.ok (JVal.obj [])) (Except.ok (JVal.obj []))] =
      Except.error "latin1 failed" :=
  let t := C1_single_retry_then_abort
    (SrcFile.mk "pulse/data/aggregated/transaction/country/india/2022/1.json"
      ["pulse", "data", "aggregated", "transaction", "country", "india", "2022", "1.json"]
      (Except.error "utf8 failed") (Except.error "latin1 failed"))
    [SrcFile.mk "pulse/data/aggregated/transaction/country/india/2022/2.json"
      ["pulse", "data", "aggregated", "transaction", "country", "india", "2022", "2.json"]
      (Except.ok (JVal.obj [])) (Except.ok (JVal.obj []))]
    "utf8 failed" "latin1 failed" rfl
  ⟨t.1, (t.2 rfl).2⟩

/-- Counterexample to C1 as stated: a file failing both reads aborts the
whole aggregated loop with the error, so the loadable file after it is
never processed and nothing is written — whereas the same loop on the
second file alone produces its sink write. -/
theorem C1_counterexample :
    processCategory processAggFile
      [SrcFile.mk "pulse/data/aggregated/transaction/country/india/2022/1.json"
        ["pulse", "data", "aggregated", "transaction", "country", "india", "2022", "1.json"]
        (Except.error "JSONDecodeError") (Except.error "JSONDecodeError"),
       SrcFile.mk "pulse/data/aggregated/transaction/country/india/2022/2.json"
        ["pulse", "data", "aggregated", "transaction", "country", "india", "2022", "2.json"]
        (Except.ok (JVal.obj [("data", JVal.obj [("transactionData", JVal.arr [JVal.obj
          [("name", JVal.str "Recharge"), ("paymentInstruments", JVal.arr
            [JVal.obj [("type", JVal.str "TOTAL"), ("count", JVal.num 100), ("amount", JVal.num 5000)]])]])])]))
        (Except.error "unused")] =
      Except.error "JSONDecodeError" ∧
    processCategory processAggFile
      [SrcFile.mk "pulse/data/aggregated/transaction/country/india/2022/2.json"
        ["pulse", "data", "aggregated", "transaction", "country", "india", "2022", "2.json"]
        (Except.ok (JVal.obj [("data", JVal.obj [("transactionData", JVal.arr [JVal.obj
          [("name", JVal.str "Recharge"), ("paymentInstruments", JVal.arr
            [JVal.obj [("type", JVal.str "TOTAL"), ("count", JVal.num 100), ("amount", JVal.num 5000)]])]])])]))
        (Except.error "unused")] =
      Except.ok [SinkWrite.mk "aggregated_transaction"
        [mkAggTxRow (some "india") none none (some 2022) (some 2)
          "pulse/data/aggregated/transaction/country/india/2022/2.json"
          (JVal.str "Recharge") (JVal.num 100) (JVal.num 5000)]] := by
  constructor
  · rfl
  · rfl

/-- Symmetry helper for string beq disequalities. -/
theorem beq_false_symm (a b : String) (h : (a == b) = false) : (b == a) = false := by
  cases hb : b == a with
  | false => rfl
  | true =>
      have : b = a := eq_of_beq hb
      subst this
      rw [beq_self_eq_true] at h
      exact absurd h (by simp)

/-- Digit strings never equal a non-digit marker segment. -/
theorem pyIsDigit_ne (s m : String) (hs : pyIsDigit s = true) (hm : pyIsDigit m = false) :
    (s == m) = false := by
  cases hb : s == m with
  | false => rfl
  | true =>
      have he : s = m := eq_of_beq hb
      rw [he, hm] at hs
      exact absurd hs Bool.false_ne_true

/-- Position of the first data segment in a path whose prefix does not
contain one. -/
theorem findIdx_data (pre rest : List String) (hpre : "data" ∉ pre) :
    (pre ++ "data" :: rest).findIdx? (fun s => s == "data") = some pre.length := by
  rw [List.findIdx?_append]
  have h1 : pre.findIdx? (fun s => s == "data") = none := by
    rw [List.findIdx?_eq_none_iff]
    intro x hx
    cases hb : x == "data" with
    | false => rfl
    | true =>
        have : x = "data" := eq_of_beq hb
        subst this
        exact absurd hx hpre
  have h2 : ("data" :: rest).findIdx? (fun s => s == "data") = some 0 := by
    rw [List.findIdx?_cons]
    simp
  rw [h1, h2]
  simp

/-- Tail of a path after its first data segment. -/
theorem tail_after_data (pre rest : List String) (hpre : "data" ∉ pre) :
    (pre ++ "data" :: rest).drop
      ((((pre ++ "data" :: rest).findIdx? (fun s => s == "data")).getD 0) + 1) = rest := by
  rw [findIdx_data pre rest hpre]
  simp only [Option.getD_some]
  have : pre.length + 1 = pre.length + 1 := rfl
  rw [show (pre ++ "data" :: rest).drop (pre.length + 1) = ("data" :: rest).drop 1 from
    List.drop_append 1]
  rfl

/-- C8: for every path whose segments after the data segment are
aggregated/<kind>/country/india/<year>/<quarter file> with a numeric year
segment and a numeric quarter stem (and the kind not itself a marker
segment), the resolver returns country = the segment following the
country marker (india), state and district null, and the numeric year and
quarter. -/
theorem C8_aggregated_country_path (pre : List String) (kind ys qf : String)
    (hpre : "data" ∉ pre)
    (hk1 : (kind == "country") = false) (hk2 : (kind == "state") = false)
    (hy : pyIsDigit ys = true) (hq : pyIsDigit (pstem qf) = true) :
    parse_path_context (pre ++ "data" :: ["aggregated", kind, "country", "india", ys, qf]) =
      ⟨some "india", none, none, some (strDigitsToInt ys), some (strDigitsToInt (pstem qf))⟩ := by
  have hysC : (ys == "country") = false := pyIsDigit_ne ys "country" hy (by decide)
  have hysS : (ys == "state") = false := pyIsDigit_ne ys "state" hy (by decide)
  have hqfC : (qf == "country") = false := by
    cases hb : qf == "country" with
    | false => rfl
    | true =>
        have he : qf = "country" := eq_of_beq hb
        rw [he] at hq
        exact absurd hq (by decide)
  have hqfS : (qf == "state") = false := by
    cases hb : qf == "state" with
    | false => rfl
    | true =>
        have he : qf = "state" := eq_of_beq hb
        rw [he] at hq
        exact absurd hq (by decide)
  have hk1s : ("country" == kind) = false := beq_false_symm _ _ hk1
  have hk2s : ("state" == kind) = false := beq_false_symm _ _ hk2
  have hysCs : ("country" == ys) = false := beq_false_symm _ _ hysC
  have hysSs : ("state" == ys) = false := beq_false_symm _ _ hysS
  have hqfCs : ("country" == qf) = false := beq_false_symm _ _ hqfC
  have hqfSs : ("state" == qf) = false := beq_false_symm _ _ hqfS
  unfold parse_path_context
  simp only [tail_after_data pre ["aggregated", kind, "country", "india", ys, qf] hpre]
  simp [List.contains, List.elem_cons, List.indexOf_cons, cond,
    hk1, hk2, hk1s, hk2s, hysC, hysS, hysCs, hysSs, hqfC, hqfS, hqfCs, hqfSs, hy, hq]

/-- Witness for C8 at the concrete path
pulse/data/aggregated/transaction/country/india/2022/1.json. -/
theorem C8_aggregated_country_path_witness :
    parse_path_context
      ["pulse", "data", "aggregated", "transaction", "country", "india", "2022", "1.json"] =
      ⟨some "india", none, none, some 2022, some 1⟩ :=
  C8_aggregated_country_path ["pulse"] "transaction" "2022" "1.json"
    (by decide) rfl rfl (by decide) (by decide)

/-- Step equation of the %20 replacement scan. -/
theorem replaceFuel20_cons (f : Nat) (c : Char) (rest : List Char) :
    replaceFuel ['%', '2', '0'] [' '] (f + 1) (c :: rest) =
      if ['%', '2', '0'] ≠ [] ∧ ['%', '2', '0'].isPrefixOf (c :: rest) = true then
        ' ' :: replaceFuel ['%', '2', '0'] [' '] f ((c :: rest).drop 3)
      else c :: replaceFuel ['%', '2', '0'] [' '] f rest := rfl

/-- Boolean form of a character disequality. -/
theorem char_beq_false (a b : Char) (h : ¬ a = b) : (a == b) = false := by
  cases hb : a == b with
  | false => rfl
  | true => exact absurd (eq_of_beq hb) h

/-- Replacement scan of the empty list. -/
theorem replaceFuel_nil (pat rep : List Char) (f : Nat) :
    replaceFuel pat rep f [] = [] := by
  cases f <;> rfl

/-- Head shape of a nonempty replacement result: it starts with the
replacement space or with the original head character. -/
theorem replaceFuel_head20 (fuel : Nat) (c : Char) (rest : List Char) :
    ∃ t, replaceFuel ['%', '2', '0'] [' '] fuel (c :: rest) = ' ' :: t ∨
         replaceFuel ['%', '2', '0'] [' '] fuel (c :: rest) = c :: t := by
  cases fuel with
  | zero => exact ⟨rest, Or.inr rfl⟩
  | succ f =>
      rw [replaceFuel20_cons]
      by_cases h : (['%', '2', '0'] ≠ [] ∧ ['%', '2', '0'].isPrefixOf (c :: rest) = true)
      · rw [if_pos h]
        exact ⟨_, Or.inl rfl⟩
      · rw [if_neg h]
        exact ⟨_, Or.inr rfl⟩

/-- Replacement of %20 by a space never leaves an occurrence of %20 in
its output: the replacement character cannot recreate one across a
boundary. -/
theorem replace20_no_occurrence : ∀ (fuel : Nat) (s : List Char), s.length ≤ fuel →
    ((replaceFuel ['%', '2', '0'] [' '] fuel s).tails.any
      (fun t => ['%', '2', '0'].isPrefixOf t)) = false := by
  intro fuel
  induction fuel with
  | zero =>
      intro s hs
      have : s = [] := List.length_eq_zero.mp (Nat.le_zero.mp hs)
      subst this
      rfl
  | succ f ih =>
      intro s hs
      cases s with
      | nil => rfl
      | cons c rest =>
          rw [replaceFuel20_cons]
          by_cases h : (['%', '2', '0'] ≠ [] ∧ ['%', '2', '0'].isPrefixOf (c :: rest) = true)
          · rw [if_pos h]
            obtain ⟨-, hp⟩ := h
            cases rest with
            | nil => simp [List.isPrefixOf] at hp
            | cons d rest2 =>
                cases rest2 with
                | nil => simp [List.isPrefixOf] at hp
                | cons e rest3 =>
                    simp only [List.isPrefixOf, Bool.and_eq_true, beq_iff_eq] at hp
                    obtain ⟨hc, hd, he, -⟩ := hp
                    subst hc
                    subst hd
                    subst he
                    rw [show ('%' :: '2' :: '0' :: rest3).drop 3 = rest3 from rfl]
                    rw [List.tails_cons, List.any_cons]
                    have hlen3 : rest3.length ≤ f := by
                      simp only [List.length_cons] at hs
                      omega
                    rw [ih rest3 hlen3]
                    rw [show (['%', '2', '0'].isPrefixOf
                        (' ' :: replaceFuel ['%', '2', '0'] [' '] f rest3)) =
                      (('%' == ' ') && ['2', '0'].isPrefixOf
                        (replaceFuel ['%', '2', '0'] [' '] f rest3)) from rfl]
                    rw [show ('%' == ' ') = false from rfl]
                    rfl
          · rw [if_neg h]
            rw [List.tails_cons, List.any_cons]
            have hlen1 : rest.length ≤ f := by
              simp only [List.length_cons] at hs
              omega
            rw [ih rest hlen1]
            rw [show (['%', '2', '0'].isPrefixOf
                (c :: replaceFuel ['%', '2', '0'] [' '] f rest)) =
              (('%' == c) && ['2', '0'].isPrefixOf
                (replaceFuel ['%', '2', '0'] [' '] f rest)) from rfl]
            by_cases hc : c = '%'
            case neg =>
              rw [char_beq_false '%' c (fun hh => hc hh.symm)]
              rfl
            case pos =>
              subst hc
              rw [show ('%' == '%') = true from rfl, Bool.true_and, Bool.or_false]
              have hnp : (['2', '0'].isPrefixOf rest) = false := by
                cases hx : ['2', '0'].isPrefixOf rest with
                | false => rfl
                | true =>
                    refine absurd ⟨by simp, ?_⟩ h
                    rw [show (['%', '2', '0'].isPrefixOf ('%' :: rest)) =
                      (('%' == '%') && ['2', '0'].isPrefixOf rest) from rfl, hx]
                    rfl
              cases rest with
              | nil =>
                  rw [replaceFuel_nil]
                  rfl
              | cons d r2 =>
                  by_cases hd : d = '2'
                  case neg =>
                      obtain ⟨t, ht | ht⟩ := replaceFuel_head20 f d r2
                      · rw [ht]
                        rw [show (['2', '0'].isPrefixOf (' ' :: t)) =
                          (('2' == ' ') && ['0'].isPrefixOf t) from rfl]
                        rw [show ('2' == ' ') = false from rfl]
                        rfl
                      · rw [ht]
                        rw [show (['2', '0'].isPrefixOf (d :: t)) =
                          (('2' == d) && ['0'].isPrefixOf t) from rfl]
                        rw [char_beq_false '2' d (fun hh => hd hh.symm)]
                        rfl
                  case pos =>
                      subst hd
                      have hr2 : (['0'].isPrefixOf r2) = false := by
                        rw [show (['2', '0'].isPrefixOf ('2' :: r2)) =
                          (('2' == '2') && ['0'].isPrefixOf r2) from rfl,
                          show ('2' == '2') = true from rfl, Bool.true_and] at hnp
                        exact hnp
                      obtain ⟨f2, rfl⟩ : ∃ f2, f = f2 + 1 := by
                        refine ⟨f - 1, ?_⟩
                        simp only [List.length_cons] at hs
                        omega
                      rw [replaceFuel20_cons, if_neg (by
                        intro hcon
                        have hx := hcon.2
                        rw [show (['%', '2', '0'].isPrefixOf ('2' :: r2)) =
                          (('%' == '2') && ['2', '0'].isPrefixOf r2) from rfl,
                          show ('%' == '2') = false from rfl, Bool.false_and] at hx
                        exact Bool.false_ne_true hx)]
                      rw [show (['2', '0'].isPrefixOf
                          ('2' :: replaceFuel ['%', '2', '0'] [' '] f2 r2)) =
                        (('2' == '2') && ['0'].isPrefixOf
                          (replaceFuel ['%', '2', '0'] [' '] f2 r2)) from rfl,
                        show ('2' == '2') = true from rfl, Bool.true_and]
                      cases r2 with
                      | nil =>
                          rw [replaceFuel_nil]
                          rfl
                      | cons e r3 =>
                          have h0e : ('0' == e) = false := by
                            rw [show (['0'].isPrefixOf (e :: r3)) =
                              (('0' == e) && List.isPrefixOf ([] : List Char) r3) from rfl] at hr2
                            simpa using hr2
                          obtain ⟨t, ht | ht⟩ := replaceFuel_head20 f2 e r3
                          · rw [ht]
                            rw [show (['0'].isPrefixOf (' ' :: t)) =
                              (('0' == ' ') && List.isPrefixOf ([] : List Char) t) from rfl]
                            rw [show ('0' == ' ') = false from rfl]
                            rfl
                          · rw [ht]
                            rw [show (['0'].isPrefixOf (e :: t)) =
                              (('0' == e) && List.isPrefixOf ([] : List Char) t) from rfl, h0e]
                            rfl

/-- Absence of the %20 pattern in a decoded state name. -/
theorem pyReplace_no_p20 (s : String) : strContains (pyReplace s "%20" " ") "%20" = false :=
  replace20_no_occurrence s.toList.length s.toList (le_refl _)

/-- Membership of a marker segment placed anywhere in a list. -/
theorem contains_marker (pre2 : List String) (m : String) (rest2 : List String) :
    (pre2 ++ m :: rest2).contains m = true := by
  induction pre2 with
  | nil =>
      rw [List.nil_append,
        show ((m :: rest2).contains m) = ((m == m) || rest2.contains m) from rfl,
        beq_self_eq_true]
      rfl
  | cons p ps ih =>
      rw [List.cons_append,
        show ((p :: (ps ++ m :: rest2)).contains m) =
          ((m == p) || (ps ++ m :: rest2).contains m) from rfl, ih]
      simp

/-- Index of the first occurrence of a marker segment. -/
theorem indexOf_marker (pre2 : List String) (m : String) (rest2 : List String)
    (h : m ∉ pre2) : List.indexOf m (pre2 ++ m :: rest2) = pre2.length := by
  induction pre2 with
  | nil =>
      rw [List.nil_append, List.indexOf_cons, beq_self_eq_true]
      rfl
  | cons p ps ih =>
      rw [List.cons_append, List.indexOf_cons]
      have hp : (p == m) = false := by
        cases hb : p == m with
        | false => rfl
        | true =>
            have : p = m := eq_of_beq hb
            subst this
            exact absurd (List.mem_cons_self p ps) h
      rw [hp]
      simp only [cond_false]
      rw [ih (fun hm => h (List.mem_cons_of_mem p hm))]
      rfl

/-- Element following a marker segment. -/
theorem get?_after_marker (pre2 : List String) (m seg : String) (tl : List String) :
    (pre2 ++ m :: seg :: tl).get? (pre2.length + 1) = some seg := by
  induction pre2 with
  | nil => rfl
  | cons p ps ih =>
      rw [List.cons_append]
      simpa using ih

/-- C9: on a map/top path (tail not starting with the aggregated segment,
at least four segments) containing a state-wise marker followed by a state
segment, the resolver sets state to that following segment with every %20
decoded to a space — the decoded name is the str.replace image and no %20
occurrence remains in it. -/
theorem C9_statewise_state_decoded (pre mid tl : List String) (t0 seg : String)
    (hpre : "data" ∉ pre)
    (h0 : t0 ≠ "aggregated")
    (hsw : "state-wise" ∉ t0 :: mid)
    (hlen : 4 ≤ (t0 :: (mid ++ "state-wise" :: seg :: tl)).length) :
    (parse_path_context (pre ++ "data" :: t0 :: (mid ++ "state-wise" :: seg :: tl))).state =
      some (pyReplace seg "%20" " ") ∧
    strContains (pyReplace seg "%20" " ") "%20" = false := by
  refine ⟨?_, pyReplace_no_p20 seg⟩
  have hconm : (t0 :: (mid ++ "state-wise" :: seg :: tl)).contains "state-wise" = true := by
    have h2 := contains_marker (t0 :: mid) "state-wise" (seg :: tl)
    simp at h2
    simp [h2]
  have hidx : List.indexOf "state-wise" (t0 :: (mid ++ "state-wise" :: seg :: tl)) =
      (t0 :: mid).length := by
    have h2 := indexOf_marker (t0 :: mid) "state-wise" (seg :: tl) hsw
    simpa using h2
  have hget : (t0 :: (mid ++ "state-wise" :: seg :: tl)).get? ((t0 :: mid).length + 1) =
      some seg := by
    have h2 := get?_after_marker (t0 :: mid) "state-wise" seg tl
    simpa using h2
  have hb : mid.length + 1 < (mid ++ "state-wise" :: seg :: tl).length := by
    simp
  have helem : (mid ++ "state-wise" :: seg :: tl)[mid.length + 1] = seg := by
    have h9 : (mid ++ "state-wise" :: seg :: tl).get? (mid.length + 1) = some seg :=
      get?_after_marker mid "state-wise" seg tl
    rw [List.get?_eq_getElem?, List.getElem?_eq_getElem hb] at h9
    exact Option.some.inj h9
  unfold parse_path_context
  simp only [tail_after_data pre (t0 :: (mid ++ "state-wise" :: seg :: tl)) hpre]
  rw [if_pos hlen]
  rw [if_neg (by simp [h0])]
  by_cases hci : ((t0 :: (mid ++ "state-wise" :: seg :: tl)).contains "country" &&
      (t0 :: (mid ++ "state-wise" :: seg :: tl)).contains "india") = true
  · simp [hci, hconm, hidx, hget, helem]
  · simp [hci, hconm, hidx, hget, helem]

/-- Witness for C9 at the concrete path
pulse/data/map/transaction/hover/state-wise/Tamil%20Nadu/2021/3.json. -/
theorem C9_statewise_state_decoded_witness :
    (parse_path_context ["pulse", "data", "map", "transaction", "hover",
      "state-wise", "Tamil%20Nadu", "2021", "3.json"]).state = some "Tamil Nadu" ∧
    strContains "Tamil Nadu" "%20" = false := by
  have h := C9_statewise_state_decoded ["pulse"] ["transaction", "hover"] ["2021", "3.json"]
    "map" "Tamil%20Nadu" (by decide) (by decide) (by decide) (by decide)
  have he : pyReplace "Tamil%20Nadu" "%20" " " = "Tamil Nadu" := by decide
  rw [he] at h
  exact h

/-- C4 (amended): the resolver is a total function of the path (every
input yields a context tuple, never an exception), and a year or quarter
digit-test failure nulls only that signal: on an aggregated state path a
non-digit year segment still leaves the quarter parsed, and a non-digit
quarter stem still leaves the year parsed. However an out-of-range marker
follower (the state marker as last segment) skips that whole marker
block, so year and quarter from that block are also left null even when
independently parseable (see the counterexample). -/
theorem C4_signal_isolation :
    (∀ (pre : List String) (st y2 qf : String),
      "data" ∉ pre →
      (st == "country") = false → (y2 == "country") = false → (qf == "country") = false →
      pyIsDigit y2 = false → pyIsDigit (pstem qf) = true →
      parse_path_context (pre ++ "data" :: ["aggregated", "state", st, y2, qf]) =
        ⟨none, some (pyReplace st "%20" " "), none, none, some (strDigitsToInt (pstem qf))⟩) ∧
    (∀ (pre : List String) (st y2 qf : String),
      "data" ∉ pre →
      (st == "country") = false → (y2 == "country") = false → (qf == "country") = false →
      pyIsDigit y2 = true → pyIsDigit (pstem qf) = false →
      parse_path_context (pre ++ "data" :: ["aggregated", "state", st, y2, qf]) =
        ⟨none, some (pyReplace st "%20" " "), none, some (strDigitsToInt y2), none⟩) := by
  constructor
  · intro pre st y2 qf hpre hst hy2c hqfc hy2 hqf
    unfold parse_path_context
    simp only [tail_after_data pre ["aggregated", "state", st, y2, qf] hpre]
    simp [List.contains, List.elem_cons, List.indexOf_cons, cond, hst, hy2c, hqfc, hy2, hqf]
  · intro pre st y2 qf hpre hst hy2c hqfc hy2 hqf
    unfold parse_path_context
    simp only [tail_after_data pre ["aggregated", "state", st, y2, qf] hpre]
    simp [List.contains, List.elem_cons, List.indexOf_cons, cond, hst, hy2c, hqfc, hy2, hqf]

/-- Witness for C4 at concrete paths with a bad year and a bad quarter. -/
theorem C4_signal_isolation_witness :
    parse_path_context ["data", "aggregated", "state", "Kerala", "x202", "1.json"] =
      ⟨none, some "Kerala", none, none, some 1⟩ ∧
    parse_path_context ["data", "aggregated", "state", "Kerala", "2022", "q.json"] =
      ⟨none, some "Kerala", none, some 2022, none⟩ := by
  constructor
  · have h := C4_signal_isolation.1 [] "Kerala" "x202" "1.json"
      (by decide) rfl rfl rfl (by decide) (by decide)
    have he : pyReplace "Kerala" "%20" " " = "Kerala" := by decide
    rw [he] at h
    exact h
  · have h := C4_signal_isolation.2 [] "Kerala" "2022" "q.json"
      (by decide) rfl rfl rfl (by decide) (by decide)
    have he : pyReplace "Kerala" "%20" " " = "Kerala" := by decide
    rw [he] at h
    exact h

/-- Counterexample to C4 as stated: with the state marker as the last
tail segment, the marker block aborts on the missing follower and the
whole tuple is null — in particular year is null although the year
segment 1 is independently parseable as a digit. -/
theorem C4_counterexample :
    parse_path_context ["data", "aggregated", "2022", "1", "state"] =
      ⟨none, none, none, none, none⟩ ∧
    pyIsDigit "1" = true := by
  constructor
  · decide
  · decide

/-- Inversion of a successful bind in the error monad. -/
theorem bind_ok {α β : Type} {a : Except String α} {f : α → Except String β} {v : β}
    (h : (a >>= f) = Except.ok v) : ∃ w, a = Except.ok w ∧ f w = Except.ok v := by
  cases a with
  | error e => simp [Bind.bind, Except.bind] at h
  | ok w =>
      refine ⟨w, rfl, ?_⟩
      simpa [Bind.bind, Except.bind] using h

theorem country_mkAggTxRow (c s d : Option String) (y q : Option Int) (src : String)
    (t cn am : JVal) : lookupKey (mkAggTxRow c s d y q src t cn am) "country" = optStr c := rfl

theorem country_mkAggUserRow (c s d : Option String) (y q : Option Int) (src : String)
    (reg opens act : JVal) :
    lookupKey (mkAggUserRow c s d y q src reg opens act) "country" = optStr c := rfl

theorem country_mkAggInsRow (c s d : Option String) (y q : Option Int) (src : String)
    (t pol prem : JVal) :
    lookupKey (mkAggInsRow c s d y q src t pol prem) "country" = optStr c := rfl

theorem country_mkMapTxRow (c s : Option String) (y q : Option Int) (src : String)
    (n cnt amt : JVal) : lookupKey (mkMapTxRow c s y q src n cnt amt) "country" = optStr c := rfl

theorem country_mkMapUserRow (c s : Option String) (y q : Option Int) (src : String)
    (n reg opens : JVal) :
    lookupKey (mkMapUserRow c s y q src n reg opens) "country" = optStr c := rfl

theorem country_mkMapInsRow (c s : Option String) (y q : Option Int) (src : String)
    (n pol prem : JVal) :
    lookupKey (mkMapInsRow c s y q src n pol prem) "country" = optStr c := rfl

theorem country_mkTopRow (c s : Option String) (y q : Option Int) (src : String)
    (n pin rank : JVal) (k1 : String) (v1 : JVal) (k2 : String) (v2 : JVal) :
    lookupKey (mkTopRow c s y q src n pin rank k1 v1 k2 v2) "country" = optStr c := rfl

/-- Every row of the aggregated transaction row loop carries the country
argument. -/
theorem aggTxRows_country (c s d : Option String) (y q : Option Int) (src : String) :
    ∀ (recs : List JVal) (rows : List Row),
    aggTxRows c s d y q src recs = Except.ok rows →
    ∀ r ∈ rows, lookupKey r "country" = optStr c := by
  intro recs
  induction recs with
  | nil =>
      intro rows h r hr
      cases h
      simp at hr
  | cons rec rest ih =>
      intro rows h r hr
      unfold aggTxRows at h
      obtain ⟨f, hf, h⟩ := bind_ok h
      obtain ⟨rows2, hrows2, h⟩ := bind_ok h
      simp only [pure, Except.pure, Except.ok.injEq] at h
      subst h
      rcases List.mem_cons.mp hr with hre | hre
      · subst hre
        exact country_mkAggTxRow c s d y q src f.1 f.2.1 f.2.2
      · exact ih rows2 hrows2 r hre

/-- Every row of parse_aggregated_transaction carries the country
argument. -/
theorem parse_aggregated_transaction_country (j : JVal) (c s d : Option String)
    (y q : Option Int) (src : String) (rows : List Row)
    (h : parse_aggregated_transaction j c s d y q src = Except.ok rows) :
    ∀ r ∈ rows, lookupKey r "country" = optStr c := by
  unfold parse_aggregated_transaction at h
  obtain ⟨recs, hrecs, h⟩ := bind_ok h
  exact aggTxRows_country c s d y q src recs rows h

/-- Every row of the aggregated insurance row loop carries the country
argument. -/
theorem aggInsRows_country (c s d : Option String) (y q : Option Int) (src : String) :
    ∀ (recs : List JVal) (rows : List Row),
    aggInsRows c s d y q src recs = Except.ok rows →
    ∀ r ∈ rows, lookupKey r "country" = optStr c := by
  intro recs
  induction recs with
  | nil =>
      intro rows h r hr
      cases h
      simp at hr
  | cons rec rest ih =>
      intro rows h r hr
      unfold aggInsRows at h
      obtain ⟨f, hf, h⟩ := bind_ok h
      obtain ⟨rows2, hrows2, h⟩ := bind_ok h
      simp only [pure, Except.pure, Except.ok.injEq] at h
      subst h
      rcases List.mem_cons.mp hr with hre | hre
      · subst hre
        exact country_mkAggInsRow c s d y q src f.1 f.2.1 f.2.2
      · exact ih rows2 hrows2 r hre

/-- Every row of parse_aggregated_insurance carries the country
argument. -/
theorem parse_aggregated_insurance_country (j : JVal) (c s d : Option String)
    (y q : Option Int) (src : String) (rows : List Row)
    (h : parse_aggregated_insurance j c s d y q src = Except.ok rows) :
    ∀ r ∈ rows, lookupKey r "country" = optStr c := by
  unfold parse_aggregated_insurance at h
  obtain ⟨recs, hrecs, h⟩ := bind_ok h
  exact aggInsRows_country c s d y q src recs rows h

/-- Every row of parse_aggregated_user carries the country argument. -/
theorem parse_aggregated_user_country (j : JVal) (c s d : Option String)
    (y q : Option Int) (src : String) (rows : List Row)
    (h : parse_aggregated_user j c s d y q src = Except.ok rows) :
    ∀ r ∈ rows, lookupKey r "country" = optStr c := by
  intro r hr
  unfold parse_aggregated_user at h
  cases hD : pyOr (safe_get j ["data"]) (JVal.obj []) with
  | obj kvs =>
      simp only [hD] at h
      by_cases hc1 : (containsKey kvs "registeredUsers" || containsKey kvs "appOpens" ||
          containsKey kvs "activeUsers") = true
      · simp only [hc1, if_true] at h
        obtain ⟨reg, hreg, h⟩ := bind_ok h
        obtain ⟨opens, hop, h⟩ := bind_ok h
        by_cases hA : (lookupKey kvs "activeUsers").isNull = true
        · simp only [hA, if_true, pure, Except.pure, Bind.bind, Except.bind,
            Except.ok.injEq] at h
          subst h
          rcases List.mem_singleton.mp hr with rfl
          exact country_mkAggUserRow c s d y q src _ _ _
        · simp only [hA, if_false, Bool.not_eq_true] at h
          rw [if_neg (by simp [hA])] at h
          obtain ⟨act, hact, h⟩ := bind_ok h
          simp only [pure, Except.pure, Bind.bind, Except.bind, Except.ok.injEq] at h
          subst h
          rcases List.mem_singleton.mp hr with rfl
          exact country_mkAggUserRow c s d y q src _ _ _
      · simp only [hc1, if_false, Bool.not_eq_true] at h
        rw [if_neg (by simp [hc1])] at h
        cases hU : lookupKey kvs "usersByDevice" with
        | arr entries =>
            simp only [hU] at h
            by_cases hE : entries.isEmpty = true
            · rw [if_pos hE] at h
              simp only [pure, Except.pure, Except.ok.injEq] at h
              subst h
              simp at hr
            · rw [if_neg hE] at h
              obtain ⟨t, ht, h⟩ := bind_ok h
              simp only [pure, Except.pure, Except.ok.injEq] at h
              subst h
              rcases List.mem_singleton.mp hr with rfl
              exact country_mkAggUserRow c s d y q src _ _ _
        | null =>
            simp only [hU, pure, Except.pure, Except.ok.injEq] at h
            subst h
            simp at hr
        | bool b =>
            simp only [hU, pure, Except.pure, Except.ok.injEq] at h
            subst h
            simp at hr
        | num q2 =>
            simp only [hU, pure, Except.pure, Except.ok.injEq] at h
            subst h
            simp at hr
        | str s2 =>
            simp only [hU, pure, Except.pure, Except.ok.injEq] at h
            subst h
            simp at hr
        | obj kvs2 =>
            simp only [hU, pure, Except.pure, Except.ok.injEq] at h
            subst h
            simp at hr
  | null =>
      simp only [hD, pure, Except.pure, Except.ok.injEq] at h
      subst h
      simp at hr
  | bool b =>
      simp only [hD, pure, Except.pure, Except.ok.injEq] at h
      subst h
      simp at hr
  | num q2 =>
      simp only [hD, pure, Except.pure, Except.ok.injEq] at h
      subst h
      simp at hr
  | str s2 =>
      simp only [hD, pure, Except.pure, Except.ok.injEq] at h
      subst h
      simp at hr
  | arr xs =>
      simp only [hD, pure, Except.pure, Except.ok.injEq] at h
      subst h
      simp at hr

/-- Every row of the map transaction item loop carries the country
argument. -/
theorem mapTxItems_country (c s : Option String) (y q : Option Int) (src : String) :
    ∀ (items : List JVal) (rows : List Row),
    mapTxItems c s y q src items = Except.ok rows →
    ∀ r ∈ rows, lookupKey r "country" = optStr c := by
  intro items
  induction items with
  | nil =>
      intro rows h r hr
      cases h
      simp at hr
  | cons item rest ih =>
      intro rows h r hr
      unfold mapTxItems at h
      cases item with
      | obj kvs =>
          obtain ⟨f, hf, h⟩ := bind_ok h
          obtain ⟨rows2, hrows2, h⟩ := bind_ok h
          simp only [pure, Except.pure, Except.ok.injEq] at h
          subst h
          rcases List.mem_cons.mp hr with hre | hre
          · subst hre
            exact country_mkMapTxRow c s y q src _ _ _
          · exact ih rows2 hrows2 r hre
      | null => exact ih rows h r hr
      | bool b => exact ih rows h r hr
      | num q2 => exact ih rows h r hr
      | str s2 => exact ih rows h r hr
      | arr xs => exact ih rows h r hr

/-- Every row of the map transaction candidate loop carries the country
argument. -/
theorem mapTxCands_country (c s : Option String) (y q : Option Int) (src : String) :
    ∀ (cands : List (List JVal)) (rows : List Row),
    mapTxCands c s y q src cands = Except.ok rows →
    ∀ r ∈ rows, lookupKey r "country" = optStr c := by
  intro cands
  induction cands with
  | nil =>
      intro rows h r hr
      cases h
      simp at hr
  | cons cand rest ih =>
      intro rows h r hr
      unfold mapTxCands at h
      obtain ⟨r1, hr1, h⟩ := bind_ok h
      obtain ⟨r2, hr2, h⟩ := bind_ok h
      simp only [pure, Except.pure, Except.ok.injEq] at h
      subst h
      rcases List.mem_append.mp hr with hre | hre
      · exact mapTxItems_country c s y q src cand r1 hr1 r hre
      · exact ih r2 hr2 r hre

/-- Every row of the map user item loop carries the country argument. -/
theorem mapUserItems_country (c s : Option String) (y q : Option Int) (src : String) :
    ∀ (items : List (String × JVal)) (rows : List Row),
    mapUserItems c s y q src items = Except.ok rows →
    ∀ r ∈ rows, lookupKey r "country" = optStr c := by
  intro items
  induction items with
  | nil =>
      intro rows h r hr
      cases h
      simp at hr
  | cons item rest ih =>
      intro rows h r hr
      unfold mapUserItems at h
      obtain ⟨name, metric⟩ := item
      cases metric with
      | obj mkv =>
          obtain ⟨rv, hrv, h⟩ := bind_ok h
          obtain ⟨ov, hov, h⟩ := bind_ok h
          obtain ⟨rows2, hrows2, h⟩ := bind_ok h
          simp only [pure, Except.pure, Except.ok.injEq] at h
          subst h
          rcases List.mem_cons.mp hr with hre | hre
          · subst hre
            exact country_mkMapUserRow c s y q src _ _ _
          · exact ih rows2 hrows2 r hre
      | null => exact ih rows h r hr
      | bool b => exact ih rows h r hr
      | num q2 => exact ih rows h r hr
      | str s2 => exact ih rows h r hr
      | arr xs => exact ih rows h r hr

/-- Every row of the map insurance list loop carries the country
argument. -/
theorem mapInsListItems_country (c s : Option String) (y q : Option Int) (src : String) :
    ∀ (items : List JVal) (rows : List Row),
    mapInsListItems c s y q src items = Except.ok rows →
    ∀ r ∈ rows, lookupKey r "country" = optStr c := by
  intro items
  induction items with
  | nil =>
      intro rows h r hr
      cases h
      simp at hr
  | cons item rest ih =>
      intro rows h r hr
      unfold mapInsListItems at h
      cases item with
      | obj kvs =>
          obtain ⟨f, hf, h⟩ := bind_ok h
          obtain ⟨rows2, hrows2, h⟩ := bind_ok h
          simp only [pure, Except.pure, Except.ok.injEq] at h
          subst h
          rcases List.mem_cons.mp hr with hre | hre
          · subst hre
            exact country_mkMapInsRow c s y q src _ _ _
          · exact ih rows2 hrows2 r hre
      | null => exact ih rows h r hr
      | bool b => exact ih rows h r hr
      | num q2 => exact ih rows h r hr
      | str s2 => exact ih rows h r hr
      | arr xs => exact ih rows h r hr

/-- Every row of the map insurance dict loop carries the country
argument. -/
theorem mapInsDictItems_country (c s : Option String) (y q : Option Int) (src : String) :
    ∀ (items : List (String × JVal)) (rows : List Row),
    mapInsDictItems c s y q src items = Except.ok rows →
    ∀ r ∈ rows, lookupKey r "country" = optStr c := by
  intro items
  induction items with
  | nil =>
      intro rows h r hr
      cases h
      simp at hr
  | cons item rest ih =>
      intro rows h r hr
      unfold mapInsDictItems at h
      obtain ⟨name, metric⟩ := item
      cases metric with
      | obj mkv =>
          obtain ⟨f, hf, h⟩ := bind_ok h
          obtain ⟨rows2, hrows2, h⟩ := bind_ok h
          simp only [pure, Except.pure, Except.ok.injEq] at h
          subst h
          rcases List.mem_cons.mp hr with hre | hre
          · subst hre
            exact country_mkMapInsRow c s y q src _ _ _
          · exact ih rows2 hrows2 r hre
      | null => exact ih rows h r hr
      | bool b => exact ih rows h r hr
      | num q2 => exact ih rows h r hr
      | str s2 => exact ih rows h r hr
      | arr xs => exact ih rows h r hr

/-- Every row of the map insurance candidate loop carries the country
argument. -/
theorem mapInsCands_country (c s : Option String) (y q : Option Int) (src : String) :
    ∀ (cands : List JVal) (rows : List Row),
    mapInsCands c s y q src cands = Except.ok rows →
    ∀ r ∈ rows, lookupKey r "country" = optStr c := by
  intro cands
  induction cands with
  | nil =>
      intro rows h r hr
      cases h
      simp at hr
  | cons cand rest ih =>
      intro rows h r hr
      unfold mapInsCands at h
      cases cand with
      | arr xs =>
          obtain ⟨r1, hr1, h⟩ := bind_ok h
          obtain ⟨r2, hr2, h⟩ := bind_ok h
          simp only [pure, Except.pure, Except.ok.injEq] at h
          subst h
          rcases List.mem_append.mp hr with hre | hre
          · exact mapInsListItems_country c s y q src xs r1 hr1 r hre
          · exact ih r2 hr2 r hre
      | obj kvs =>
          obtain ⟨r1, hr1, h⟩ := bind_ok h
          obtain ⟨r2, hr2, h⟩ := bind_ok h
          simp only [pure, Except.pure, Except.ok.injEq] at h
          subst h
          rcases List.mem_append.mp hr with hre | hre
          · exact mapInsDictItems_country c s y q src kvs r1 hr1 r hre
          · exact ih r2 hr2 r hre
      | null =>
          obtain ⟨r1, hr1, h⟩ := bind_ok h
          obtain ⟨r2, hr2, h⟩ := bind_ok h
          simp only [pure, Except.pure, Except.ok.injEq] at h
          subst h
          simp only [pure, Except.pure, Except.ok.injEq] at hr1
          subst hr1
          rcases List.mem_append.mp hr with hre | hre
          · simp at hre
          · exact ih r2 hr2 r hre
      | bool b =>
          obtain ⟨r1, hr1, h⟩ := bind_ok h
          obtain ⟨r2, hr2, h⟩ := bind_ok h
          simp only [pure, Except.pure, Except.ok.injEq] at h
          subst h
          simp only [pure, Except.pure, Except.ok.injEq] at hr1
          subst hr1
          rcases List.mem_append.mp hr with hre | hre
          · simp at hre
          · exact ih r2 hr2 r hre
      | num q2 =>
          obtain ⟨r1, hr1, h⟩ := bind_ok h
          obtain ⟨r2, hr2, h⟩ := bind_ok h
          simp only [pure, Except.pure, Except.ok.injEq] at h
          subst h
          simp only [pure, Except.pure, Except.ok.injEq] at hr1
          subst hr1
          rcases List.mem_append.mp hr with hre | hre
          · simp at hre
          · exact ih r2 hr2 r hre
      | str s2 =>
          obtain ⟨r1, hr1, h⟩ := bind_ok h
          obtain ⟨r2, hr2, h⟩ := bind_ok h
          simp only [pure, Except.pure, Except.ok.injEq] at h
          subst h
          simp only [pure, Except.pure, Except.ok.injEq] at hr1
          subst hr1
          rcases List.mem_append.mp hr with hre | hre
          · simp at hre
          · exact ih r2 hr2 r hre

/-- Every row of parse_map_json carries the country argument. -/
theorem parse_map_json_country (j : JVal) (kind : String) (c s : Option String)
    (y q : Option Int) (src : String) (rows : List Row)
    (h : parse_map_json j kind c s y q src = Except.ok rows) :
    ∀ r ∈ rows, lookupKey r "country" = optStr c := by
  intro r hr
  unfold parse_map_json at h
  by_cases h1 : (kind == "transaction") = true
  · simp only [h1, if_true] at h
    exact mapTxCands_country c s y q src _ rows h r hr
  · simp only [h1, if_false, Bool.not_eq_true] at h
    rw [if_neg (by simp [h1])] at h
    by_cases h2 : (kind == "user") = true
    · simp only [h2, if_true] at h
      obtain ⟨h0, hh0, h⟩ := bind_ok h
      cases hH : pyOr h0 (JVal.obj []) with
      | obj items =>
          simp only [hH] at h
          exact mapUserItems_country c s y q src items rows h r hr
      | null =>
          simp only [hH, pure, Except.pure, Except.ok.injEq] at h
          subst h
          simp at hr
      | bool b =>
          simp only [hH, pure, Except.pure, Except.ok.injEq] at h
          subst h
          simp at hr
      | num q2 =>
          simp only [hH, pure, Except.pure, Except.ok.injEq] at h
          subst h
          simp at hr
      | str s2 =>
          simp only [hH, pure, Except.pure, Except.ok.injEq] at h
          subst h
          simp at hr
      | arr xs =>
          simp only [hH, pure, Except.pure, Except.ok.injEq] at h
          subst h
          simp at hr
    · simp only [h2, if_false, Bool.not_eq_true] at h
      rw [if_neg (by simp [h2])] at h
      by_cases h3 : (kind == "insurance") = true
      · simp only [h3, if_true] at h
        exact mapInsCands_country c s y q src _ rows h r hr
      · simp only [h3, if_false, Bool.not_eq_true] at h
        rw [if_neg (by simp [h3])] at h
        simp only [pure, Except.pure, Except.ok.injEq] at h
        subst h
        simp at hr

/-- Every row of the top item loop carries the country argument. -/
theorem topItems_country (kind : String) (c s : Option String) (y q : Option Int) (src : String) :
    ∀ (items : List JVal) (rows : List Row),
    topItems kind c s y q src items = Except.ok rows →
    ∀ r ∈ rows, lookupKey r "country" = optStr c := by
  intro items
  induction items with
  | nil =>
      intro rows h r hr
      cases h
      simp at hr
  | cons item rest ih =>
      intro rows h r hr
      unfold topItems at h
      cases item with
      | obj kvs =>
          obtain ⟨rank, hrank, h⟩ := bind_ok h
          by_cases h1 : (kind == "user") = true
          · simp only [h1, if_true] at h
            obtain ⟨reg, hreg, h⟩ := bind_ok h
            obtain ⟨opens, hop, h⟩ := bind_ok h
            obtain ⟨rowOpt, hro, h⟩ := bind_ok h
            obtain ⟨rows2, hrows2, h⟩ := bind_ok h
            simp only [pure, Except.pure, Except.ok.injEq] at hro h
            subst hro
            subst h
            rcases List.mem_cons.mp hr with hre | hre
            · subst hre
              exact country_mkTopRow c s y q src _ _ _ _ _ _ _
            · exact ih rows2 hrows2 r hre
          · simp only [h1, if_false, Bool.not_eq_true] at h
            rw [if_neg (by simp [h1])] at h
            by_cases h2 : (kind == "transaction") = true
            · simp only [h2, if_true] at h
              obtain ⟨cnt, hcnt, h⟩ := bind_ok h
              obtain ⟨amt, hamt, h⟩ := bind_ok h
              obtain ⟨rowOpt, hro, h⟩ := bind_ok h
              obtain ⟨rows2, hrows2, h⟩ := bind_ok h
              simp only [pure, Except.pure, Except.ok.injEq] at hro h
              subst hro
              subst h
              rcases List.mem_cons.mp hr with hre | hre
              · subst hre
                exact country_mkTopRow c s y q src _ _ _ _ _ _ _
              · exact ih rows2 hrows2 r hre
            · simp only [h2, if_false, Bool.not_eq_true] at h
              rw [if_neg (by simp [h2])] at h
              by_cases h3 : (kind == "insurance") = true
              · simp only [h3, if_true] at h
                obtain ⟨pol, hpol, h⟩ := bind_ok h
                obtain ⟨prem, hprem, h⟩ := bind_ok h
                obtain ⟨rowOpt, hro, h⟩ := bind_ok h
                obtain ⟨rows2, hrows2, h⟩ := bind_ok h
                simp only [pure, Except.pure, Except.ok.injEq] at hro h
                subst hro
                subst h
                rcases List.mem_cons.mp hr with hre | hre
                · subst hre
                  exact country_mkTopRow c s y q src _ _ _ _ _ _ _
                · exact ih rows2 hrows2 r hre
              · simp only [h3, if_false, Bool.not_eq_true] at h
                rw [if_neg (by simp [h3])] at h
                obtain ⟨rowOpt, hro, h⟩ := bind_ok h
                obtain ⟨rows2, hrows2, h⟩ := bind_ok h
                simp only [pure, Except.pure, Except.ok.injEq] at hro h
                subst hro
                subst h
                exact ih rows2 hrows2 r hr
      | null => exact ih rows h r hr
      | bool b => exact ih rows h r hr
      | num q2 => exact ih rows h r hr
      | str s2 => exact ih rows h r hr
      | arr xs => exact ih rows h r hr

/-- Every row of the top list loop carries the country argument. -/
theorem topLists_country (kind : String) (c s : Option String) (y q : Option Int) (src : String) :
    ∀ (lists : List (List JVal)) (rows : List Row),
    topLists kind c s y q src lists = Except.ok rows →
    ∀ r ∈ rows, lookupKey r "country" = optStr c := by
  intro lists
  induction lists with
  | nil =>
      intro rows h r hr
      cases h
      simp at hr
  | cons lst rest ih =>
      intro rows h r hr
      unfold topLists at h
      obtain ⟨r1, hr1, h⟩ := bind_ok h
      obtain ⟨r2, hr2, h⟩ := bind_ok h
      simp only [pure, Except.pure, Except.ok.injEq] at h
      subst h
      rcases List.mem_append.mp hr with hre | hre
      · exact topItems_country kind c s y q src lst r1 hr1 r hre
      · exact ih r2 hr2 r hre

/-- Every row of parse_top_json carries the country argument. -/
theorem parse_top_json_country (j : JVal) (kind : String) (c s : Option String)
    (y q : Option Int) (src : String) (rows : List Row)
    (h : parse_top_json j kind c s y q src = Except.ok rows) :
    ∀ r ∈ rows, lookupKey r "country" = optStr c := by
  intro r hr
  unfold parse_top_json at h
  exact topLists_country kind c s y q src _ rows h r hr

/-- The country default expression never yields the empty string. -/
theorem orDefaultStr_india_ne_empty (o : Option String) : orDefaultStr o "india" ≠ "" := by
  cases o with
  | none => simp [orDefaultStr]
  | some s =>
      simp only [orDefaultStr]
      by_cases hs : (s == "") = true
      · rw [if_pos hs]; simp
      · rw [if_neg hs]
        intro he
        exact hs (by simp [he])

/-- Every row in a sink write produced by the aggregated per-file step
carries a non-empty country string. -/
theorem processAggFile_country (f : SrcFile) (ws : List SinkWrite)
    (h : processAggFile f = Except.ok ws) :
    ∀ w ∈ ws, ∀ r ∈ w.rows, rowHasCountry r := by
  intro w hw r hr
  unfold processAggFile at h
  obtain ⟨j, hj, h⟩ := bind_ok h
  by_cases h1 : strContains (pyReplace f.path "\\" "/") "/aggregated/transaction/" = true
  · simp only [h1, if_true] at h
    obtain ⟨rows, hrows, h⟩ := bind_ok h
    simp only [pure, Except.pure, Except.ok.injEq] at h
    subst h
    by_cases he : rows.isEmpty
    · rw [if_pos he] at hw; simp at hw
    · rw [if_neg he] at hw
      simp only [List.mem_singleton] at hw
      subst hw
      refine ⟨orDefaultStr (parse_path_context f.parts).country "india", ?_,
        orDefaultStr_india_ne_empty _⟩
      have hc := parse_aggregated_transaction_country j _ _ _ _ _ _ rows hrows r hr
      simpa [optStr] using hc
  · simp only [h1, if_false, Bool.not_eq_true] at h
    rw [if_neg (by simp [h1])] at h
    by_cases h2 : strContains (pyReplace f.path "\\" "/") "/aggregated/user/" = true
    · simp only [h2, if_true] at h
      obtain ⟨rows, hrows, h⟩ := bind_ok h
      simp only [pure, Except.pure, Except.ok.injEq] at h
      subst h
      by_cases he : rows.isEmpty
      · rw [if_pos he] at hw; simp at hw
      · rw [if_neg he] at hw
        simp only [List.mem_singleton] at hw
        subst hw
        refine ⟨orDefaultStr (parse_path_context f.parts).country "india", ?_,
          orDefaultStr_india_ne_empty _⟩
        have hc := parse_aggregated_user_country j _ _ _ _ _ _ rows hrows r hr
        simpa [optStr] using hc
    · simp only [h2, if_false, Bool.not_eq_true] at h
      rw [if_neg (by simp [h2])] at h
      by_cases h3 : strContains (pyReplace f.path "\\" "/") "/aggregated/insurance/" = true
      · simp only [h3, if_true] at h
        obtain ⟨rows, hrows, h⟩ := bind_ok h
        simp only [pure, Except.pure, Except.ok.injEq] at h
        subst h
        by_cases he : rows.isEmpty
        · rw [if_pos he] at hw; simp at hw
        · rw [if_neg he] at hw
          simp only [List.mem_singleton] at hw
          subst hw
          refine ⟨orDefaultStr (parse_path_context f.parts).country "india", ?_,
            orDefaultStr_india_ne_empty _⟩
          have hc := parse_aggregated_insurance_country j _ _ _ _ _ _ rows hrows r hr
          simpa [optStr] using hc
      · simp only [h3, if_false, Bool.not_eq_true] at h
        rw [if_neg (by simp [h3])] at h
        simp only [pure, Except.pure, Except.ok.injEq] at h
        subst h
        simp at hw

/-- Every row in a sink write produced by the map per-file step carries a
non-empty country string. -/
theorem processMapFile_country (f : SrcFile) (ws : List SinkWrite)
    (h : processMapFile f = Except.ok ws) :
    ∀ w ∈ ws, ∀ r ∈ w.rows, rowHasCountry r := by
  intro w hw r hr
  unfold processMapFile at h
  obtain ⟨j, hj, h⟩ := bind_ok h
  by_cases h1 : strContains (pyReplace f.path "\\" "/") "/map/transaction/" = true
  · simp only [h1, if_true] at h
    obtain ⟨rows, hrows, h⟩ := bind_ok h
    simp only [pure, Except.pure, Except.ok.injEq] at h
    subst h
    by_cases he : rows.isEmpty
    · rw [if_pos he] at hw; simp at hw
    · rw [if_neg he] at hw
      simp only [List.mem_singleton] at hw
      subst hw
      refine ⟨orDefaultStr (parse_path_context f.parts).country "india", ?_,
        orDefaultStr_india_ne_empty _⟩
      have hc := parse_map_json_country j "transaction" _ _ _ _ _ rows hrows r hr
      simpa [optStr] using hc
  · simp only [h1, if_false, Bool.not_eq_true] at h
    rw [if_neg (by simp [h1])] at h
    by_cases h2 : strContains (pyReplace f.path "\\" "/") "/map/user/" = true
    · simp only [h2, if_true] at h
      obtain ⟨rows, hrows, h⟩ := bind_ok h
      simp only [pure, Except.pure, Except.ok.injEq] at h
      subst h
      by_cases he : rows.isEmpty
      · rw [if_pos he] at hw; simp at hw
      · rw [if_neg he] at hw
        simp only [List.mem_singleton] at hw
        subst hw
        refine ⟨orDefaultStr (parse_path_context f.parts).country "india", ?_,
          orDefaultStr_india_ne_empty _⟩
        have hc := parse_map_json_country j "user" _ _ _ _ _ rows hrows r hr
        simpa [optStr] using hc
    · simp only [h2, if_false, Bool.not_eq_true] at h
      rw [if_neg (by simp [h2])] at h
      by_cases h3 : strContains (pyReplace f.path "\\" "/") "/map/insurance/" = true
      · simp only [h3, if_true] at h
        obtain ⟨rows, hrows, h⟩ := bind_ok h
        simp only [pure, Except.pure, Except.ok.injEq] at h
        subst h
        by_cases he : rows.isEmpty
        · rw [if_pos he] at hw; simp at hw
        · rw [if_neg he] at hw
          simp only [List.mem_singleton] at hw
          subst hw
          refine ⟨orDefaultStr (parse_path_context f.parts).country "india", ?_,
            orDefaultStr_india_ne_empty _⟩
          have hc := parse_map_json_country j "insurance" _ _ _ _ _ rows hrows r hr
          simpa [optStr] using hc
      · simp only [h3, if_false, Bool.not_eq_true] at h
        rw [if_neg (by simp [h3])] at h
        simp only [pure, Except.pure, Except.ok.injEq] at h
        subst h
        simp at hw

/-- Every row in a sink write produced by the top per-file step carries a
non-empty country string. -/
theorem processTopFile_country (f : SrcFile) (ws : List SinkWrite)
    (h : processTopFile f = Except.ok ws) :
    ∀ w ∈ ws, ∀ r ∈ w.rows, rowHasCountry r := by
  intro w hw r hr
  unfold processTopFile at h
  obtain ⟨j, hj, h⟩ := bind_ok h
  by_cases h1 : strContains (pyReplace f.path "\\" "/") "/top/transaction/" = true
  · simp only [h1, if_true] at h
    obtain ⟨rows, hrows, h⟩ := bind_ok h
    simp only [pure, Except.pure, Except.ok.injEq] at h
    subst h
    by_cases he : rows.isEmpty
    · rw [if_pos he] at hw; simp at hw
    · rw [if_neg he] at hw
      simp only [List.mem_singleton] at hw
      subst hw
      refine ⟨orDefaultStr (parse_path_context f.parts).country "india", ?_,
        orDefaultStr_india_ne_empty _⟩
      have hc := parse_top_json_country j "transaction" _ _ _ _ _ rows hrows r hr
      simpa [optStr] using hc
  · simp only [h1, if_false, Bool.not_eq_true] at h
    rw [if_neg (by simp [h1])] at h
    by_cases h2 : strContains (pyReplace f.path "\\" "/") "/top/user/" = true
    · simp only [h2, if_true] at h
      obtain ⟨rows, hrows, h⟩ := bind_ok h
      simp only [pure, Except.pure, Except.ok.injEq] at h
      subst h
      by_cases he : rows.isEmpty
      · rw [if_pos he] at hw; simp at hw
      · rw [if_neg he] at hw
        simp only [List.mem_singleton] at hw
        subst hw
        refine ⟨orDefaultStr (parse_path_context f.parts).country "india", ?_,
          orDefaultStr_india_ne_empty _⟩
        have hc := parse_top_json_country j "user" _ _ _ _ _ rows hrows r hr
        simpa [optStr] using hc
    · simp only [h2, if_false, Bool.not_eq_true] at h
      rw [if_neg (by simp [h2])] at h
      by_cases h3 : strContains (pyReplace f.path "\\" "/") "/top/insurance/" = true
      · simp only [h3, if_true] at h
        obtain ⟨rows, hrows, h⟩ := bind_ok h
        simp only [pure, Except.pure, Except.ok.injEq] at h
        subst h
        by_cases he : rows.isEmpty
        · rw [if_pos he] at hw; simp at hw
        · rw [if_neg he] at hw
          simp only [List.mem_singleton] at hw
          subst hw
          refine ⟨orDefaultStr (parse_path_context f.parts).country "india", ?_,
            orDefaultStr_india_ne_empty _⟩
          have hc := parse_top_json_country j "insurance" _ _ _ _ _ rows hrows r hr
          simpa [optStr] using hc
      · simp only [h3, if_false, Bool.not_eq_true] at h
        rw [if_neg (by simp [h3])] at h
        simp only [pure, Except.pure, Except.ok.injEq] at h
        subst h
        simp at hw

/-- The category loop preserves the per-file country property. -/
theorem processCategory_country (step : SrcFile → Except String (List SinkWrite))
    (hstep : ∀ f ws, step f = Except.ok ws → ∀ w ∈ ws, ∀ r ∈ w.rows, rowHasCountry r) :
    ∀ (fs : List SrcFile) (ws : List SinkWrite),
    processCategory step fs = Except.ok ws →
    ∀ w ∈ ws, ∀ r ∈ w.rows, rowHasCountry r := by
  intro fs
  induction fs with
  | nil =>
      intro ws h w hw
      cases h
      simp at hw
  | cons f rest ih =>
      intro ws h w hw r hr
      unfold processCategory at h
      obtain ⟨w1, hw1, h⟩ := bind_ok h
      obtain ⟨w2, hw2, h⟩ := bind_ok h
      simp only [pure, Except.pure, Except.ok.injEq] at h
      subst h
      rcases List.mem_append.mp hw with hwe | hwe
      · exact hstep f w1 hw1 w hwe r hr
      · exact ih w2 hw2 w hwe r hr

/-- C10: every row handed to the row sink by a full load pass, across all
nine tables of the three category loops, carries a non-null (indeed
non-empty) country string; and whenever the path context resolver returns
no country, the orchestrator substitutes the constant india before
invoking the extractor. -/
theorem C10_rows_carry_country :
    (∀ (files : Discovered) (ws : List SinkWrite),
      process_and_load files = Except.ok ws →
      ∀ w ∈ ws, ∀ r ∈ w.rows, rowHasCountry r) ∧
    (∀ parts : List String, (parse_path_context parts).country = none →
      orDefaultStr (parse_path_context parts).country "india" = "india") := by
  constructor
  · intro files ws h w hw r hr
    unfold process_and_load at h
    obtain ⟨a, ha, h⟩ := bind_ok h
    obtain ⟨m, hm, h⟩ := bind_ok h
    obtain ⟨t, ht, h⟩ := bind_ok h
    simp only [pure, Except.pure, Except.ok.injEq] at h
    subst h
    rcases List.mem_append.mp hw with hwe | hwe
    · rcases List.mem_append.mp hwe with hwe2 | hwe2
      · exact processCategory_country processAggFile processAggFile_country
          files.aggregated a ha w hwe2 r hr
      · exact processCategory_country processMapFile processMapFile_country
          files.mapFiles m hm w hwe2 r hr
    · exact processCategory_country processTopFile processTopFile_country
        files.topFiles t ht w hwe r hr
  · intro parts hc
    rw [hc]
    rfl

/-- Concrete full load pass exercising C10: one map-user file whose path
context yields no country, so the india default is substituted and the
emitted row carries it. -/
theorem C10_rows_carry_country_witness :
    rowHasCountry (mkMapUserRow (some "india") none none none
      "/data/map/user/x.json" (JVal.str "Karnataka") (JVal.num 7) (JVal.num 0)) ∧
    orDefaultStr (parse_path_context []).country "india" = "india" :=
  ⟨C10_rows_carry_country.1
      ⟨[], [⟨"/data/map/user/x.json", [],
        Except.ok (JVal.obj [("data", JVal.obj [("hoverData",
          JVal.obj [("Karnataka", JVal.obj [("registeredUsers", JVal.num 7)])])])]),
        Except.ok JVal.null⟩], []⟩
      [⟨"map_user", [mkMapUserRow (some "india") none none none
        "/data/map/user/x.json" (JVal.str "Karnataka") (JVal.num 7) (JVal.num 0)]⟩]
      rfl
      ⟨"map_user", [mkMapUserRow (some "india") none none none
        "/data/map/user/x.json" (JVal.str "Karnataka") (JVal.num 7) (JVal.num 0)]⟩
      (List.mem_singleton.mpr rfl)
      (mkMapUserRow (some "india") none none none
        "/data/map/user/x.json" (JVal.str "Karnataka") (JVal.num 7) (JVal.num 0))
      (List.mem_singleton.mpr rfl),
   C10_rows_carry_country.2 [] rfl⟩
